import Mathlib

/-!
Verification development for the CardaLabs SDK data-aggregation core.

This file gives a shallow embedding, in Lean 4, of the parts of the SDK
exercised by the checked properties:

* `src/utils/errors.ts` — `RetryExecutor.calculateDelay` and `CircuitBreaker`
* `src/sdk/aggregator/field-router.ts` — `FieldRouter`
* `src/sdk/cache/memory-cache.ts` — `MemoryCache`
* `src/sdk/aggregator/data-aggregator.ts` — `DataAggregator`

Modelling conventions:

* JavaScript `Map` objects are modelled as association lists
  (`JsMap α := List (String × α)`) with JS insertion-order semantics:
  `jsSet` updates an existing key in place and appends a fresh key at the
  end, `jsGet` returns the first (unique) binding, iteration is list order.
* `Date.now()` timestamps are explicit `Nat` parameters (milliseconds).
* JSON-serialisable primitive values are modelled by the inductive `Value`;
  on these, JavaScript `JSON.stringify`-equality and `===` both coincide
  with Lean equality.
* An asynchronous provider call is modelled by an oracle
  `behavior : String → ProviderOutcome` giving, per provider name, either a
  thrown error (which also covers a lost `Promise.race` against the timeout)
  or a settled `ProviderResponse`.
* Floating-point arithmetic of the metrics / delay computations is modelled
  over `ℚ` (the numbers involved in the claims are exactly representable).
-/

namespace CardaLabs

/-- JS `Map` with string keys, as an insertion-ordered association list. -/
abbrev JsMap (α : Type) := List (String × α)

/-- `Map.prototype.get`: first binding of the key, if any. -/
def jsGet {α : Type} : JsMap α → String → Option α
  | [], _ => none
  | (k, v) :: rest, key => if k = key then some v else jsGet rest key

/-- `Map.prototype.set`: update an existing binding in place, else append. -/
def jsSet {α : Type} : JsMap α → String → α → JsMap α
  | [], key, v => [(key, v)]
  | (k, w) :: rest, key, v =>
      if k = key then (k, v) :: rest else (k, w) :: jsSet rest key v

/-- `Map.prototype.delete` (ignoring the returned boolean). -/
def jsDelete {α : Type} : JsMap α → String → JsMap α
  | [], _ => []
  | (k, w) :: rest, key => if k = key then rest else (k, w) :: jsDelete rest key

/-- `Array.from(new Set(xs))`: deduplicate keeping first occurrences. -/
def jsDedup (xs : List String) : List String :=
  xs.foldl (fun acc s => if acc.contains s then acc else acc ++ [s]) []

/-- JSON-serialisable primitive value (the value space of the claims).
On this type JavaScript deep equality (`JSON.stringify` comparison) and
strict equality `===` both agree with Lean `=`. -/
inductive Value : Type
  | vNull : Value
  | vBool : Bool → Value
  | vNum : ℚ → Value
  | vStr : String → Value
  deriving DecidableEq, Repr

@[simp] theorem jsGet_jsSet_self {α : Type} (m : JsMap α) (k : String) (v : α) :
    jsGet (jsSet m k v) k = some v := by
  induction m with
  | nil => simp [jsGet, jsSet]
  | cons hd tl ih =>
      obtain ⟨k', v'⟩ := hd
      by_cases h : k' = k
      · simp [jsGet, jsSet, h]
      · simp [jsGet, jsSet, h, ih]

theorem jsGet_jsSet_ne {α : Type} (m : JsMap α) (k k' : String) (v : α)
    (h : k ≠ k') : jsGet (jsSet m k v) k' = jsGet m k' := by
  induction m with
  | nil => simp [jsGet, jsSet, h]
  | cons hd tl ih =>
      obtain ⟨k₀, v₀⟩ := hd
      by_cases h₀ : k₀ = k
      · subst h₀; simp [jsGet, jsSet, h]
      · simp only [jsSet, if_neg h₀, jsGet]
        by_cases h₁ : k₀ = k'
        · simp [h₁]
        · simp [h₁, ih]

theorem jsGet_mem {α : Type} {m : JsMap α} {k : String} {v : α}
    (h : jsGet m k = some v) : (k, v) ∈ m := by
  induction m with
  | nil => simp [jsGet] at h
  | cons hd tl ih =>
      obtain ⟨k₀, v₀⟩ := hd
      by_cases h₀ : k₀ = k
      · subst h₀
        simp only [jsGet, if_true, eq_self_iff_true, if_pos, Option.some.injEq] at h
        exact h ▸ List.mem_cons_self _ _
      · simp only [jsGet, if_neg h₀] at h
        exact List.mem_cons_of_mem _ (ih h)

/-! ## Circuit breaker (`src/utils/errors.ts`, class `CircuitBreaker`) -/

/-- Constructor argument of `CircuitBreaker`. -/
structure BreakerConfig where
  failureThreshold : Nat
  recoveryTime : Nat
  successThreshold : Nat
  deriving DecidableEq, Repr

/-- The default constructor argument. -/
def defaultBreakerConfig : BreakerConfig :=
  { failureThreshold := 5, recoveryTime := 60000, successThreshold := 2 }

/-- The `state` field: `'closed' | 'open' | 'half-open'`. -/
inductive BreakerPhase : Type
  | closed : BreakerPhase
  | opened : BreakerPhase
  | halfOpen : BreakerPhase
  deriving DecidableEq, Repr

/-- Mutable fields of a `CircuitBreaker` instance. -/
structure CBState where
  failures : Nat
  lastFailureTime : Option Nat
  phase : BreakerPhase
  deriving DecidableEq, Repr

/-- Field initialisers: `failures = 0`, `lastFailureTime = null`,
`state = 'closed'`. -/
def CBState.init : CBState := { failures := 0, lastFailureTime := none, phase := .closed }

/-- `CircuitBreaker.reset`. -/
def CBState.reset : CBState := { failures := 0, lastFailureTime := none, phase := .closed }

/-- `CircuitBreaker.shouldAttemptRecovery`, with `Date.now()` passed as `now`. -/
def shouldAttemptRecovery (cfg : BreakerConfig) (s : CBState) (now : Nat) : Bool :=
  match s.lastFailureTime with
  | none => true
  | some t => (cfg.recoveryTime : ℤ) ≤ (now : ℤ) - (t : ℤ)

/-- `CircuitBreaker.onSuccess`. `Math.max(0, failures - 1)` is `Nat`
subtraction. -/
def onSuccess (s : CBState) : CBState :=
  if s.phase = .halfOpen then
    let f := s.failures - 1
    { s with failures := f, phase := if f = 0 then .closed else s.phase }
  else
    { s with failures := 0 }

/-- `CircuitBreaker.onFailure`. -/
def onFailure (cfg : BreakerConfig) (s : CBState) (now : Nat) : CBState :=
  let f := s.failures + 1
  { failures := f
    lastFailureTime := some now
    phase := if cfg.failureThreshold ≤ f then .opened else s.phase }

/-- Result of one `execute` call: either rejected synchronously with the
breaker-open error, or the guarded function ran with outcome `ok`. -/
inductive ExecOutcome : Type
  | rejected : ExecOutcome
  | ran : Bool → ExecOutcome
  deriving DecidableEq, Repr

/-- `CircuitBreaker.execute`, with the guarded call's outcome supplied as
the boolean `ok` and `Date.now()` as `now`. -/
def CBState.execute (cfg : BreakerConfig) (s : CBState) (now : Nat) (ok : Bool) :
    CBState × ExecOutcome :=
  if s.phase = .opened then
    if shouldAttemptRecovery cfg s now then
      let s' := { s with phase := BreakerPhase.halfOpen }
      (if ok then onSuccess s' else onFailure cfg s' now, .ran ok)
    else
      (s, .rejected)
  else
    (if ok then onSuccess s else onFailure cfg s now, .ran ok)

/-- Breaker states reachable through the public API (`execute`, `reset`)
from a freshly constructed breaker. -/
inductive CBReachable (cfg : BreakerConfig) : CBState → Prop
  | init : CBReachable cfg CBState.init
  | step (s : CBState) (now : Nat) (ok : Bool) :
      CBReachable cfg s → CBReachable cfg (CBState.execute cfg s now ok).1
  | reset (s : CBState) : CBReachable cfg s → CBReachable cfg CBState.reset

/-- Run a list of `(now, ok)` calls through `execute`. -/
def cbRun (cfg : BreakerConfig) (s : CBState) (calls : List (Nat × Bool)) : CBState :=
  calls.foldl (fun s c => (CBState.execute cfg s c.1 c.2).1) s

theorem cbRun_reachable (cfg : BreakerConfig) (calls : List (Nat × Bool))
    (s : CBState) (hs : CBReachable cfg s) : CBReachable cfg (cbRun cfg s calls) := by
  induction calls generalizing s with
  | nil => simpa [cbRun] using hs
  | cons c rest ih =>
      simpa [cbRun] using ih _ (CBReachable.step s c.1 c.2 hs)

/-! ## Retry executor (`src/utils/errors.ts`, `RetryExecutor.calculateDelay`) -/

/-- The retry configuration fields used by `calculateDelay`. -/
structure RetryConfig where
  maxAttempts : Nat
  baseDelay : ℚ
  maxDelay : ℚ
  backoffMultiplier : ℚ
  jitter : Bool

/-- `RetryExecutor.calculateDelay`, with the `Math.random()` draw supplied
as `rand ∈ [0, 1]`.  JavaScript `Math.round x = ⌊x + 1/2⌋`, which is
Mathlib's `round` on `ℚ`. -/
def calculateDelay (cfg : RetryConfig) (attempt : Nat) (rand : ℚ) : ℤ :=
  let d1 := cfg.baseDelay * cfg.backoffMultiplier ^ (attempt - 1)
  let d2 := min d1 cfg.maxDelay
  let d3 := if cfg.jitter then d2 + (rand * 2 - 1) * (d2 * (1 / 10)) else d2
  max 0 (round d3)

/-! ## Field router (`src/sdk/aggregator/field-router.ts`) -/

/-- The `tokenData` / `walletData` field lists of `ProviderCapabilities`
(both optional in the TypeScript interface). -/
structure ProviderCapabilities where
  tokenData : Option (List String)
  walletData : Option (List String)
  deriving DecidableEq, Repr

/-- The slice of a `DataProvider` adapter the router and aggregator read. -/
structure DataProvider where
  name : String
  capabilities : ProviderCapabilities
  deriving DecidableEq, Repr

/-- `ProviderMetrics`. -/
structure ProviderMetrics where
  provider : String
  avgResponseTime : ℚ
  successRate : ℚ
  lastUsed : Nat
  totalRequests : Nat
  failedRequests : Nat
  cost : Option ℚ
  deriving DecidableEq, Repr

/-- `RoutingPlan.estimated`. -/
structure RoutingEstimate where
  responseTime : ℚ
  successRate : ℚ
  cost : Option ℚ
  deriving DecidableEq, Repr

/-- `RoutingPlan`. -/
structure RoutingPlan where
  field : String
  provider : String
  fallbackProviders : List String
  estimated : RoutingEstimate
  deriving DecidableEq, Repr

/-- `RoutingStrategy`. -/
inductive RoutingStrategy : Type
  | priority | fastest | cost | reliability
  deriving DecidableEq, Repr

/-- `AggregationStrategy.combineStrategy` (not consulted by the code paths
under verification, carried for fidelity). -/
inductive CombineStrategy : Type
  | first | latest | average | weighted | vote
  deriving DecidableEq, Repr

/-- `AggregationStrategy.conflictResolution`. -/
inductive ConflictResolution : Type
  | priority | newest | majority | manual
  deriving DecidableEq, Repr

/-- `AggregationStrategy` (the `weights` record is unused by the code). -/
structure AggregationStrategy where
  combineStrategy : CombineStrategy
  conflictResolution : ConflictResolution
  deriving DecidableEq, Repr

/-- Mutable fields of a `FieldRouter` instance. -/
structure FieldRouter where
  providers : JsMap DataProvider
  metrics : JsMap ProviderMetrics
  fieldPriorities : JsMap (List String)
  deriving Repr

/-- `FieldRouter.registerProvider`. -/
def FieldRouter.registerProvider (r : FieldRouter) (p : DataProvider) (now : Nat) : FieldRouter :=
  let r := { r with providers := jsSet r.providers p.name p }
  match jsGet r.metrics p.name with
  | some _ => r
  | none =>
      let m : ProviderMetrics :=
        { provider := p.name, avgResponseTime := 1000, successRate := 1,
          lastUsed := now, totalRequests := 0, failedRequests := 0, cost := none }
      { r with metrics := jsSet r.metrics p.name m }

/-- `FieldRouter.unregisterProvider`. -/
def FieldRouter.unregisterProvider (r : FieldRouter) (name : String) : FieldRouter :=
  { r with providers := jsDelete r.providers name, metrics := jsDelete r.metrics name }

/-- `FieldRouter.setFieldPriority`. -/
def FieldRouter.setFieldPriority (r : FieldRouter) (field : String) (ps : List String) :
    FieldRouter :=
  { r with fieldPriorities := jsSet r.fieldPriorities field ps }

/-- `FieldRouter.getFieldPriorities`. -/
def FieldRouter.getFieldPriorities (r : FieldRouter) (field : String) : Option (List String) :=
  jsGet r.fieldPriorities field

/-- `FieldRouter.updateMetrics`. The EMA smoothing factor is `alpha = 0.1`;
`successRate = (total - failed) / total`. -/
def FieldRouter.updateMetrics (r : FieldRouter) (provider : String) (responseTime : ℚ)
    (success : Bool) (now : Nat) : FieldRouter :=
  match jsGet r.metrics provider with
  | none => r
  | some m =>
      let m := { m with totalRequests := m.totalRequests + 1, lastUsed := now }
      let m :=
        if success then
          { m with avgResponseTime := (1 / 10) * responseTime + (1 - 1 / 10) * m.avgResponseTime }
        else
          { m with failedRequests := m.failedRequests + 1 }
      let m := { m with successRate :=
        (((m.totalRequests : ℤ) - (m.failedRequests : ℤ) : ℤ) : ℚ) / (m.totalRequests : ℚ) }
      { r with metrics := jsSet r.metrics provider m }

/-- `FieldRouter.getProvidersForTokenField`: providers whose declared
`capabilities.tokenData` includes the field, in registry iteration order. -/
def FieldRouter.getProvidersForTokenField (r : FieldRouter) (field : String) : List String :=
  (r.providers.filter fun e =>
    match e.2.capabilities.tokenData with
    | some l => l.contains field
    | none => false).map Prod.fst

/-- `FieldRouter.getProvidersForWalletField`. -/
def FieldRouter.getProvidersForWalletField (r : FieldRouter) (field : String) : List String :=
  (r.providers.filter fun e =>
    match e.2.capabilities.walletData with
    | some l => l.contains field
    | none => false).map Prod.fst

/-- `FieldRouter.getProviderByPriority`.  `availableProviders[0] || ''`
yields `''` both for an empty candidate list and for an empty-string head. -/
def FieldRouter.getProviderByPriority (r : FieldRouter) (field : String)
    (availableProviders : List String) : String :=
  let fallback := availableProviders.headD ""
  match jsGet r.fieldPriorities field with
  | some priorities =>
      match priorities.find? (fun p => availableProviders.contains p) with
      | some p => p
      | none => fallback
  | none => fallback

/-- `∞`-defaulted average response time: `metrics?.avgResponseTime ?? Infinity`
(`none` plays `Infinity`). -/
def metricTime? (r : FieldRouter) (p : String) : Option ℚ :=
  (jsGet r.metrics p).map (·.avgResponseTime)

/-- `x < fastestTime` where `fastestTime` may be `Infinity`. -/
def ltOptTime (x : ℚ) : Option ℚ → Bool
  | none => true
  | some y => x < y

/-- `FieldRouter.getFastestProvider`. -/
def FieldRouter.getFastestProvider (r : FieldRouter) (availableProviders : List String) :
    String :=
  let start := availableProviders.headD ""
  let res := availableProviders.foldl
    (fun (acc : String × Option ℚ) p =>
      match jsGet r.metrics p with
      | some m => if ltOptTime m.avgResponseTime acc.2 then (p, some m.avgResponseTime) else acc
      | none => acc)
    (start, metricTime? r start)
  if res.1 = "" then availableProviders.headD "" else res.1

/-- `FieldRouter.getMostReliableProvider`. -/
def FieldRouter.getMostReliableProvider (r : FieldRouter) (availableProviders : List String) :
    String :=
  let start := availableProviders.headD ""
  let startRate := ((jsGet r.metrics start).map (·.successRate)).getD 0
  let res := availableProviders.foldl
    (fun (acc : String × ℚ) p =>
      match jsGet r.metrics p with
      | some m => if acc.2 < m.successRate then (p, m.successRate) else acc
      | none => acc)
    (start, startRate)
  if res.1 = "" then availableProviders.headD "" else res.1

/-- `FieldRouter.getCheapestProvider`. -/
def FieldRouter.getCheapestProvider (r : FieldRouter) (availableProviders : List String) :
    String :=
  let start := availableProviders.headD ""
  let startCost := ((jsGet r.metrics start).bind (·.cost)).getD 0
  let res := availableProviders.foldl
    (fun (acc : String × ℚ) p =>
      match jsGet r.metrics p with
      | some m => if (m.cost.getD 0) < acc.2 then (p, m.cost.getD 0) else acc
      | none => acc)
    (start, startCost)
  if res.1 = "" then availableProviders.headD "" else res.1

/-- `FieldRouter.getOptimalProvider`; `none` is the JS `null` return. -/
def FieldRouter.getOptimalProvider (r : FieldRouter) (field : String)
    (availableProviders : List String) (strategy : RoutingStrategy) : Option String :=
  match availableProviders with
  | [] => none
  | [p] => if p = "" then none else some p
  | _ =>
      match strategy with
      | .priority => some (r.getProviderByPriority field availableProviders)
      | .fastest => some (r.getFastestProvider availableProviders)
      | .reliability => some (r.getMostReliableProvider availableProviders)
      | .cost => some (r.getCheapestProvider availableProviders)

/-- The fallback-ordering comparator passed to `Array.prototype.sort` in
`createRoutingPlan` (negative means the first argument sorts earlier). -/
def fallbackComparator (r : FieldRouter) (a b : String) : ℚ :=
  match jsGet r.metrics a, jsGet r.metrics b with
  | some ma, some mb =>
      if ma.successRate ≠ mb.successRate then mb.successRate - ma.successRate
      else ma.avgResponseTime - mb.avgResponseTime
  | _, _ => 0

/-- Stable insert for `sortByComparator`. -/
def insertCmp {α : Type} (c : α → α → ℚ) (x : α) : List α → List α
  | [] => [x]
  | y :: ys => if c x y < 0 then x :: y :: ys else y :: insertCmp c x ys

/-- `Array.prototype.sort(comparator)`: stable sort (ES2019). -/
def sortByComparator {α : Type} (c : α → α → ℚ) (l : List α) : List α :=
  l.foldl (fun acc x => insertCmp c x acc) []

/-- JS falsiness of the `string | null` primary-provider value. -/
def strFalsy : Option String → Bool
  | none => true
  | some s => s = ""

/-- `FieldRouter.createRoutingPlan`. -/
def FieldRouter.createRoutingPlan (r : FieldRouter) (field : String)
    (availableProviders : List String) (strategy : RoutingStrategy) : Option RoutingPlan :=
  let primary? := r.getOptimalProvider field availableProviders strategy
  if strFalsy primary? then
    -- no candidate: fall back to the first configured priority provider so
    -- that downstream code can raise a precise "provider not found" error
    match jsGet r.fieldPriorities field with
    | some (p :: rest) =>
        if p = "" then none
        else some { field := field, provider := p, fallbackProviders := rest,
                    estimated := { responseTime := 1000, successRate := 0, cost := some 0 } }
    | _ => none
  else
    match primary? with
    | none => none
    | some primary =>
        let fallbacks := sortByComparator (fallbackComparator r)
          (availableProviders.filter (fun p => p ≠ primary))
        let m? := jsGet r.metrics primary
        some { field := field, provider := primary, fallbackProviders := fallbacks,
               estimated :=
                 { responseTime := (m?.map (·.avgResponseTime)).getD 1000
                   successRate := (m?.map (·.successRate)).getD 1
                   cost := m?.bind (·.cost) } }

/-- `FieldRouter.getRoutingStrategy`: always the default `'priority'`. -/
def FieldRouter.getRoutingStrategy (_r : FieldRouter) : RoutingStrategy := .priority

/-- `FieldRouter.planTokenDataRouting`. -/
def FieldRouter.planTokenDataRouting (r : FieldRouter) (fields : List String) :
    JsMap RoutingPlan :=
  fields.foldl
    (fun plan field =>
      match r.createRoutingPlan field (r.getProvidersForTokenField field)
          r.getRoutingStrategy with
      | some rp => jsSet plan field rp
      | none => plan)
    []

/-- `FieldRouter.planWalletDataRouting`. -/
def FieldRouter.planWalletDataRouting (r : FieldRouter) (fields : List String) :
    JsMap RoutingPlan :=
  fields.foldl
    (fun plan field =>
      match r.createRoutingPlan field (r.getProvidersForWalletField field)
          r.getRoutingStrategy with
      | some rp => jsSet plan field rp
      | none => plan)
    []

/-! ## Memory cache (`src/sdk/cache/memory-cache.ts`)

The map-of-nodes plus doubly linked recency list is represented by the
entry map `cache` together with the list `order` of keys, most recently
used first (`head = order.head`, `tail = order.getLast`). `deleteNode`,
`addToHead`, `moveToHead` and `evictLRU` correspond node-for-node to the
pointer manipulations of the source.  Each operation returns the emitted
`(event, key)` pairs; `emitEvent` forwards every emitted pair to every
registered listener (swallowing listener exceptions), so the event list is
exactly what each listener observes. -/

/-- `CacheEntry` (times in ms). -/
structure CacheEntry where
  value : Value
  ttl : Nat
  createdAt : Nat
  expiresAt : Nat
  accessCount : Nat
  lastAccessed : Nat
  deriving DecidableEq, Repr

/-- The `CacheOptions` fields the model consults (`fieldTtl`,
`cleanupInterval` and `autoCleanup` drive only the background sweep timer,
which has no synchronous effect on the operations below). -/
structure CacheOptions where
  defaultTtl : Nat := 300
  maxSize : Nat := 1000
  enableStats : Bool := true
  deriving DecidableEq, Repr

/-- `CacheStats`. -/
structure CacheStats where
  hits : Nat
  misses : Nat
  hitRate : ℚ
  size : Nat
  maxSize : Nat
  memoryUsage : Nat
  deriving DecidableEq, Repr

/-- `CacheEvent`. -/
inductive CacheEvent : Type
  | hit | miss | set | delete | clear | expired | evicted
  deriving DecidableEq, Repr

/-- Mutable state of a `MemoryCache` instance. -/
structure MemoryCache where
  cache : JsMap CacheEntry
  order : List String
  stats : CacheStats
  options : CacheOptions
  deriving DecidableEq, Repr

/-- The `MemoryCache` constructor. -/
def MemoryCache.init (options : CacheOptions) : MemoryCache :=
  { cache := [], order := [],
    stats := { hits := 0, misses := 0, hitRate := 0, size := 0,
               maxSize := options.maxSize, memoryUsage := 0 },
    options := options }

/-- `MemoryCache.estimateObjectSize` restricted to primitive values. -/
def estimateObjectSize : Value → Nat
  | .vNull => 8
  | .vStr s => s.length * 2
  | .vNum _ => 8
  | .vBool _ => 4

/-- `MemoryCache.updateMemoryUsage`. -/
def MemoryCache.updateMemoryUsage (c : MemoryCache) : MemoryCache :=
  if c.options.enableStats then
    let usage := c.cache.foldl
      (fun acc e => acc + e.1.length * 2 + estimateObjectSize e.2.value + 96) 0
    { c with stats := { c.stats with memoryUsage := usage } }
  else c

/-- `MemoryCache.isExpired`: `Date.now() > entry.expiresAt`. -/
def isExpired (entry : CacheEntry) (now : Nat) : Bool :=
  entry.expiresAt < now

/-- `MemoryCache.deleteNode` (map removal, list unlinking, `size--`,
`updateMemoryUsage`). -/
def MemoryCache.deleteNode (c : MemoryCache) (key : String) : MemoryCache :=
  MemoryCache.updateMemoryUsage
    { c with cache := jsDelete c.cache key, order := c.order.erase key,
             stats := { c.stats with size := c.stats.size - 1 } }

/-- `MemoryCache.moveToHead`: a node that is already the head is left in
place; otherwise it is unlinked and relinked at the head. -/
def MemoryCache.moveToHead (c : MemoryCache) (key : String) : MemoryCache :=
  match c.order with
  | [] => c
  | k :: _ => if k = key then c else { c with order := key :: c.order.erase key }

/-- `MemoryCache.evictLRU`: drop the tail of the recency list. -/
def MemoryCache.evictLRU (c : MemoryCache) : MemoryCache × List (CacheEvent × String) :=
  match c.order.getLast? with
  | none => (c, [])
  | some k => ((c.deleteNode k), [(.evicted, k)])

/-- `MemoryCache.incrementHits`. -/
def MemoryCache.incrementHits (c : MemoryCache) : MemoryCache :=
  if c.options.enableStats then { c with stats := { c.stats with hits := c.stats.hits + 1 } }
  else c

/-- `MemoryCache.incrementMisses`. -/
def MemoryCache.incrementMisses (c : MemoryCache) : MemoryCache :=
  if c.options.enableStats then
    { c with stats := { c.stats with misses := c.stats.misses + 1 } }
  else c

/-- `MemoryCache.get` at time `now`; returns the new state, the value
(`none` is JS `null`), and the emitted events. -/
def MemoryCache.get (c : MemoryCache) (key : String) (now : Nat) :
    MemoryCache × Option Value × List (CacheEvent × String) :=
  match jsGet c.cache key with
  | none => (c.incrementMisses, none, [(.miss, key)])
  | some entry =>
      if isExpired entry now then
        ((c.deleteNode key).incrementMisses, none, [(.expired, key)])
      else
        let entry' := { entry with accessCount := entry.accessCount + 1, lastAccessed := now }
        let c := { c with cache := jsSet c.cache key entry' }
        let c := c.moveToHead key
        (c.incrementHits, some entry.value, [(.hit, key)])

/-- `MemoryCache.set` at time `now`; `ttl` is in seconds,
`none` selects `options.defaultTtl`. -/
def MemoryCache.set (c : MemoryCache) (key : String) (value : Value) (ttl : Option Nat)
    (now : Nat) : MemoryCache × List (CacheEvent × String) :=
  let timeToLive := (ttl.getD c.options.defaultTtl) * 1000
  let entry : CacheEntry :=
    { value := value, ttl := timeToLive, createdAt := now, expiresAt := now + timeToLive,
      accessCount := 0, lastAccessed := now }
  match jsGet c.cache key with
  | some _ =>
      let c := { c with cache := jsSet c.cache key entry }
      let c := c.moveToHead key
      (c.updateMemoryUsage, [(.set, key)])
  | none =>
      let pair := if c.options.maxSize ≤ c.cache.length then c.evictLRU else (c, [])
      let c := pair.1
      let c := { c with cache := jsSet c.cache key entry,
                        order := key :: c.order,
                        stats := { c.stats with size := c.stats.size + 1 } }
      (c.updateMemoryUsage, pair.2 ++ [(.set, key)])

/-- `MemoryCache.delete`. -/
def MemoryCache.delete (c : MemoryCache) (key : String) :
    MemoryCache × Bool × List (CacheEvent × String) :=
  match jsGet c.cache key with
  | none => (c, false, [])
  | some _ => (c.deleteNode key, true, [(.delete, key)])

/-- `MemoryCache.clear`. -/
def MemoryCache.clear (c : MemoryCache) : MemoryCache × List (CacheEvent × String) :=
  ({ c with cache := [], order := [],
            stats := { c.stats with size := 0, memoryUsage := 0 } },
   [(.clear, "")])

/-- `MemoryCache.has` at time `now`: an expired entry found here is
deleted — without any event being emitted. -/
def MemoryCache.has (c : MemoryCache) (key : String) (now : Nat) :
    MemoryCache × Bool × List (CacheEvent × String) :=
  match jsGet c.cache key with
  | none => (c, false, [])
  | some entry =>
      if isExpired entry now then (c.deleteNode key, false, [])
      else (c, true, [])

/-! ## Data aggregator (`src/sdk/aggregator/data-aggregator.ts`)

A provider call (`getTokenData` / `getWalletData`, `Promise.race`d against
the per-request timeout) is modelled by the oracle
`behavior : String → ProviderOutcome`: per provider name, the call either
throws (`.throws`, covering rejections and lost timeout races) or settles
into a `ProviderResponse` (`.responds success data error`), with the
observed latency `rt`.  The identifier being queried is fixed for one
aggregation, so the oracle closes over it.  The metrics updates performed
during execution mutate only `fieldRouter.metrics`, which the remainder of
the aggregation never reads; they are omitted from the model of the
returned response.  The JS `throw` inside `resolveBypriority` (and the
`TypeError` a `reduce` of an empty array would raise in
`resolveByMajority`) are modelled with `Except String`; the surrounding
`try`/`catch` of `aggregateTokenData` / `aggregateWalletData` is the final
`match` converting an error into the aggregator-level fallback response. -/

/-- One provider call's fate, as seen by the `await` in the aggregator. -/
inductive ProviderOutcome : Type
  | throws (msg : String) (rt : Nat)
  | responds (success : Bool) (data : Option (JsMap Value)) (error : Option String) (rt : Nat)
  deriving Repr

/-- `ProviderExecution`. -/
structure ProviderExecution where
  provider : String
  success : Bool
  data : Option (JsMap Value)
  error : Option String
  responseTime : Nat
  fieldsProvided : List String
  deriving DecidableEq, Repr

/-- An entry of the `getUniqueValues` map: `{provider, value, count}`. -/
structure UniqueValue where
  provider : String
  value : Value
  count : Nat
  deriving DecidableEq, Repr

/-- `FieldAggregationResult`. -/
structure FieldAggregationResult where
  field : String
  value : Value
  sources : List String
  confidence : ℚ
  conflicts : Option (List UniqueValue)
  deriving DecidableEq, Repr

/-- An entry of the `errors` array of an `SDKResponse`. -/
structure SDKError where
  provider : String
  error : String
  recoverable : Bool
  deriving DecidableEq, Repr

/-- `ResponseMetadata` (`providerHealth` is absent in the catch branch). -/
structure ResponseMetadata where
  dataSources : List String
  cacheStatus : String
  responseTime : Nat
  timestamp : Nat
  providerHealth : Option (JsMap Bool)
  deriving DecidableEq, Repr

/-- The aggregated `TokenData` / `WalletData` record: the resolved fields
plus the `dataSource` / `lastUpdated` stamps added by `buildTokenData` /
`buildWalletData` (absent on the `{}` record of the catch branch). -/
structure AggRecord where
  fields : JsMap Value
  dataSource : Option (List String)
  lastUpdated : Option Nat
  deriving DecidableEq, Repr

/-- `SDKResponse`. -/
structure SDKResponse where
  data : AggRecord
  metadata : ResponseMetadata
  errors : List SDKError
  deriving DecidableEq, Repr

/-- Mutable fields of a `DataAggregator` (the constructor seeds both
`providers` and `fieldRouter` with the same provider list, so the two maps
hold the same bindings in any constructible aggregator). -/
structure DataAggregator where
  fieldRouter : FieldRouter
  providers : JsMap DataProvider
  deriving Repr

/-- The aggregator's `defaultStrategy`. -/
def defaultAggregationStrategy : AggregationStrategy :=
  { combineStrategy := .first, conflictResolution := .priority }

/-- `DataAggregator.getUniqueValues`, keyed by `JSON.stringify(value)`
(injective on primitive `Value`s, so keyed by the value itself). -/
def addUnique : List UniqueValue → String × Value → List UniqueValue
  | [], pv => [{ provider := pv.1, value := pv.2, count := 1 }]
  | u :: rest, pv =>
      if u.value = pv.2 then { u with count := u.count + 1 } :: rest
      else u :: addUnique rest pv

/-- `DataAggregator.getUniqueValues`. -/
def getUniqueValues (values : List (String × Value)) : List UniqueValue :=
  values.foldl addUnique []

/-- `v?.provider || 'unknown'`. -/
def providerOrUnknown (p : String) : String :=
  if p = "" then "unknown" else p

/-- `DataAggregator.resolveBypriority` (the `throw` on an empty value list
becomes `Except.error`).  `v.value !== chosen.value` is `≠` on primitive
values. -/
def resolveBypriority (field : String) (values : List (String × Value))
    (uniqueValues : List UniqueValue) : Except String FieldAggregationResult :=
  match values with
  | [] => .error ("No values available for field: " ++ field)
  | chosen :: _ =>
      .ok { field := field, value := chosen.2, sources := [chosen.1],
            confidence := 8 / 10,
            conflicts := some (uniqueValues.filter (fun u => u.value ≠ chosen.2)) }

/-- `DataAggregator.resolveByNewest`: falls back to priority resolution. -/
def resolveByNewest (field : String) (values : List (String × Value))
    (uniqueValues : List UniqueValue) : Except String FieldAggregationResult :=
  resolveBypriority field values uniqueValues

/-- `DataAggregator.resolveByMajority` (`reduce` without a seed throws on
an empty array). -/
def resolveByMajority (field : String) (values : List (String × Value))
    (uniqueValues : List UniqueValue) : Except String FieldAggregationResult :=
  match uniqueValues with
  | [] => .error "Reduce of empty array with no initial value"
  | u :: rest =>
      let majority := rest.foldl (fun acc cur => if acc.count < cur.count then cur else acc) u
      .ok { field := field, value := majority.value,
            sources := (values.filter (fun v => v.2 = majority.value)).map Prod.fst,
            confidence := (majority.count : ℚ) / (values.length : ℚ),
            conflicts := some (uniqueValues.filter (fun u => u.value ≠ majority.value)) }

/-- `DataAggregator.resolveFieldConflicts`. -/
def resolveFieldConflicts (field : String) (values : List (String × Value))
    (strategy : AggregationStrategy) : Except String FieldAggregationResult :=
  match getUniqueValues values with
  | [u] =>
      .ok { field := field, value := u.value,
            sources := values.map (fun v => providerOrUnknown v.1),
            confidence := 1, conflicts := none }
  | uniqueValues =>
      match strategy.conflictResolution with
      | .priority => resolveBypriority field values uniqueValues
      | .newest => resolveByNewest field values uniqueValues
      | .majority => resolveByMajority field values uniqueValues
      | .manual => resolveBypriority field values uniqueValues

/-- `exec.success && exec.data && exec.data[field] !== undefined`. -/
def execHasField (field : String) (e : ProviderExecution) : Bool :=
  e.success &&
    (match e.data with
     | some d => (jsGet d field).isSome
     | none => false)

/-- `exec.data[field]` on an execution known to carry the field (the
`.vNull` default is never reached on filtered executions). -/
def execFieldValue (field : String) (e : ProviderExecution) : Value :=
  match e.data with
  | some d => (jsGet d field).getD .vNull
  | none => .vNull

/-- `DataAggregator.aggregateField`. -/
def aggregateField (field : String) (executions : List ProviderExecution)
    (strategy : AggregationStrategy) : Except String (Option FieldAggregationResult) :=
  let validExecutions := executions.filter (execHasField field)
  let values := validExecutions.map (fun e => (e.provider, execFieldValue field e))
  match values with
  | [] => .ok none
  | [pv] =>
      .ok (some { field := field, value := pv.2,
                  sources := [providerOrUnknown pv.1], confidence := 1, conflicts := none })
  | _ => (resolveFieldConflicts field values strategy).map some

/-- One iteration of the loop in `DataAggregator.aggregateFieldResults`. -/
def aggregateFieldStep (executions : List ProviderExecution)
    (strategy : AggregationStrategy) (results : JsMap FieldAggregationResult)
    (field : String) : Except String (JsMap FieldAggregationResult) := do
  match ← aggregateField field executions strategy with
  | some r => pure (jsSet results field r)
  | none => pure results

/-- `DataAggregator.aggregateFieldResults`. -/
def aggregateFieldResults (requestedFields : List String)
    (executions : List ProviderExecution) (strategy : AggregationStrategy) :
    Except String (JsMap FieldAggregationResult) :=
  requestedFields.foldlM (aggregateFieldStep executions strategy) []

/-- `DataAggregator.buildTokenData`. -/
def buildTokenData (aggregationResults : JsMap FieldAggregationResult) (now : Nat) :
    AggRecord :=
  { fields := aggregationResults.map (fun e => (e.1, e.2.value))
    dataSource := some (jsDedup (aggregationResults.foldl (fun acc e => acc ++ e.2.sources) []))
    lastUpdated := some now }

/-- `DataAggregator.buildWalletData` (same construction). -/
def buildWalletData (aggregationResults : JsMap FieldAggregationResult) (now : Nat) :
    AggRecord :=
  { fields := aggregationResults.map (fun e => (e.1, e.2.value))
    dataSource := some (jsDedup (aggregationResults.foldl (fun acc e => acc ++ e.2.sources) []))
    lastUpdated := some now }

/-- `DataAggregator.buildResponseMetadata`; `elapsed` is
`Date.now() - startTime` (the `routingPlan` parameter is unused, as in the
source). -/
def buildResponseMetadata (executions : List ProviderExecution)
    (elapsed now : Nat) (_routingPlan : JsMap RoutingPlan) : ResponseMetadata :=
  { dataSources := jsDedup ((executions.filter (·.success)).map (·.provider))
    cacheStatus := "miss"
    responseTime := max 1 elapsed
    timestamp := now
    providerHealth := some (executions.foldl (fun m e => jsSet m e.provider e.success) []) }

/-- `DataAggregator.extractErrors`: failed executions that carry an error
object, marked recoverable. -/
def extractErrors (executions : List ProviderExecution) : List SDKError :=
  (executions.filter (fun e => !e.success && e.error.isSome)).map
    (fun e => { provider := e.provider, error := e.error.getD "", recoverable := true })

/-- The request grouping of `executeTokenDataRequests`: primary providers
of the plan, then — for fields with a multi-entry priority list — every
other configured priority provider that is registered and declares the
field. -/
def tokenProviderRequests (agg : DataAggregator) (routingPlan : JsMap RoutingPlan) :
    JsMap (List String) :=
  let pr := routingPlan.foldl
    (fun (m : JsMap (List String)) e =>
      jsSet m e.2.provider ((jsGet m e.2.provider).getD [] ++ [e.1]))
    []
  routingPlan.foldl
    (fun m e =>
      match jsGet agg.fieldRouter.fieldPriorities e.1 with
      | some priorities =>
          if 1 < priorities.length then
            priorities.foldl
              (fun m pname =>
                if pname ≠ e.2.provider then
                  match jsGet agg.providers pname with
                  | some prov =>
                      match prov.capabilities.tokenData with
                      | some caps =>
                          if caps.contains e.1 then
                            let fs := (jsGet m pname).getD []
                            if fs.contains e.1 then m else jsSet m pname (fs ++ [e.1])
                          else m
                      | none => m
                  | none => m
                else m)
              m
          else m
      | none => m)
    pr

/-- The grouping of `executeWalletDataRequests` (primaries only — the
wallet path has no extra priority-provider fan-out). -/
def walletProviderRequests (routingPlan : JsMap RoutingPlan) : JsMap (List String) :=
  routingPlan.foldl
    (fun (m : JsMap (List String)) e =>
      jsSet m e.2.provider ((jsGet m e.2.provider).getD [] ++ [e.1]))
    []

/-- One grouped provider call (the body of the `Promise.all` map). -/
def runProviderCall (agg : DataAggregator) (behavior : String → ProviderOutcome)
    (pname : String) (fields : List String) : ProviderExecution :=
  match jsGet agg.providers pname with
  | none =>
      { provider := pname, success := false, data := none,
        error := some ("Provider " ++ pname ++ " not found"),
        responseTime := 0, fieldsProvided := [] }
  | some _ =>
      match behavior pname with
      | .throws msg rt =>
          { provider := pname, success := false, data := none, error := some msg,
            responseTime := rt, fieldsProvided := [] }
      | .responds ok data error rt =>
          if ok then
            { provider := pname, success := true, data := data, error := none,
              responseTime := rt, fieldsProvided := fields }
          else
            { provider := pname, success := false, data := none, error := error,
              responseTime := rt, fieldsProvided := [] }

/-- The sequential fallback loop for one field: skip unregistered
providers and providers that already succeeded among the primary
executions, stop at the first fallback success, drop thrown errors. -/
def tryFallbacks (agg : DataAggregator) (behavior : String → ProviderOutcome)
    (executions : List ProviderExecution) (field : String) :
    List String → List ProviderExecution
  | [] => []
  | fbp :: rest =>
      match jsGet agg.providers fbp with
      | none => tryFallbacks agg behavior executions field rest
      | some _ =>
          if executions.any (fun e => e.provider = fbp && e.success) then
            tryFallbacks agg behavior executions field rest
          else
            match behavior fbp with
            | .throws _ _ => tryFallbacks agg behavior executions field rest
            | .responds ok data _ rt =>
                if ok then
                  [{ provider := fbp, success := true, data := data, error := none,
                     responseTime := rt, fieldsProvided := [field] }]
                else tryFallbacks agg behavior executions field rest

/-- The fallback phase shared by both execution paths. -/
def fallbackExecutions (agg : DataAggregator) (behavior : String → ProviderOutcome)
    (routingPlan : JsMap RoutingPlan) (executions : List ProviderExecution) :
    List ProviderExecution :=
  routingPlan.foldl
    (fun fb e =>
      match executions.find? (fun x => x.provider = e.2.provider) with
      | none => fb
      | some primaryExecution =>
          if !primaryExecution.success && e.2.fallbackProviders ≠ [] then
            fb ++ tryFallbacks agg behavior executions e.1 e.2.fallbackProviders
          else fb)
    []

/-- `DataAggregator.executeTokenDataRequests`. -/
def executeTokenDataRequests (agg : DataAggregator) (behavior : String → ProviderOutcome)
    (routingPlan : JsMap RoutingPlan) : List ProviderExecution :=
  let executions := (tokenProviderRequests agg routingPlan).map
    (fun e => runProviderCall agg behavior e.1 e.2)
  executions ++ fallbackExecutions agg behavior routingPlan executions

/-- `DataAggregator.executeWalletDataRequests`. -/
def executeWalletDataRequests (agg : DataAggregator) (behavior : String → ProviderOutcome)
    (routingPlan : JsMap RoutingPlan) : List ProviderExecution :=
  let executions := (walletProviderRequests routingPlan).map
    (fun e => runProviderCall agg behavior e.1 e.2)
  executions ++ fallbackExecutions agg behavior routingPlan executions

/-- The provider name a synthesized "provider not found" execution is
attributed to: `fieldPriorities?.[0] || 'unknown'`. -/
def missingProviderName (r : FieldRouter) (field : String) : String :=
  match jsGet r.fieldPriorities field with
  | some (p :: _) => if p = "" then "unknown" else p
  | _ => "unknown"

/-- One synthesized "provider not found" execution. -/
def mkMissingExecution (r : FieldRouter) (field : String) : ProviderExecution :=
  let mp := missingProviderName r field
  { provider := mp, success := false, data := none,
    error := some ("Provider " ++ mp ++ " not found"),
    responseTime := 1, fieldsProvided := [] }

/-- One iteration of the missing-field loop of `aggregateTokenData`. -/
def missingStep (r : FieldRouter) (routingPlan : JsMap RoutingPlan)
    (acc : List ProviderExecution) (field : String) : List ProviderExecution :=
  if (jsGet routingPlan field).isNone then acc ++ [mkMissingExecution r field] else acc

/-- The synthesized failed executions for requested token fields absent
from the routing plan. -/
def missingProviderExecutions (agg : DataAggregator) (routingPlan : JsMap RoutingPlan)
    (fields : List String) : List ProviderExecution :=
  fields.foldl (missingStep agg.fieldRouter routingPlan) []

/-- All executions of one `aggregateTokenData` call: the provider and
fallback executions followed by the synthesized ones. -/
def tokenAllExecutions (agg : DataAggregator) (behavior : String → ProviderOutcome)
    (fields : List String) : List ProviderExecution :=
  let routingPlan := agg.fieldRouter.planTokenDataRouting fields
  executeTokenDataRequests agg behavior routingPlan ++
    missingProviderExecutions agg routingPlan fields

/-- The `aggregationResults` value of one `aggregateTokenData` call. -/
def tokenAggregationResults (agg : DataAggregator) (behavior : String → ProviderOutcome)
    (fields : List String) (strategy : AggregationStrategy) :
    Except String (JsMap FieldAggregationResult) :=
  aggregateFieldResults fields (tokenAllExecutions agg behavior fields) strategy

/-- The `try` block of `aggregateTokenData`. -/
def aggregateTokenDataCore (agg : DataAggregator) (behavior : String → ProviderOutcome)
    (fields : List String) (strategy : AggregationStrategy) (elapsed now : Nat) :
    Except String SDKResponse := do
  let routingPlan := agg.fieldRouter.planTokenDataRouting fields
  let allExecutions := tokenAllExecutions agg behavior fields
  let aggregationResults ← aggregateFieldResults fields allExecutions strategy
  let tokenData := buildTokenData aggregationResults now
  let metadata := buildResponseMetadata allExecutions elapsed now routingPlan
  pure { data := tokenData, metadata := metadata, errors := extractErrors allExecutions }

/-- The `catch` branch shared by both aggregation entry points: empty data
record, no data sources, a single non-recoverable aggregator error. -/
def aggregatorCatchResponse (msg : String) (elapsed now : Nat) : SDKResponse :=
  { data := { fields := [], dataSource := none, lastUpdated := none }
    metadata := { dataSources := [], cacheStatus := "miss", responseTime := elapsed,
                  timestamp := now, providerHealth := none }
    errors := [{ provider := "aggregator", error := msg, recoverable := false }] }

/-- `DataAggregator.aggregateTokenData` (strategy defaulting plus
`try`/`catch`). -/
def aggregateTokenData (agg : DataAggregator) (behavior : String → ProviderOutcome)
    (fields : List String) (strategy? : Option AggregationStrategy) (elapsed now : Nat) :
    SDKResponse :=
  let strategy := strategy?.getD defaultAggregationStrategy
  match aggregateTokenDataCore agg behavior fields strategy elapsed now with
  | .ok r => r
  | .error msg => aggregatorCatchResponse msg elapsed now

/-- All executions of one `aggregateWalletData` call (unlike the token
path, nothing is synthesized for fields absent from the plan). -/
def walletAllExecutions (agg : DataAggregator) (behavior : String → ProviderOutcome)
    (fields : List String) : List ProviderExecution :=
  executeWalletDataRequests agg behavior (agg.fieldRouter.planWalletDataRouting fields)

/-- The `try` block of `aggregateWalletData` — note: no synthesized
executions for fields absent from the plan. -/
def aggregateWalletDataCore (agg : DataAggregator) (behavior : String → ProviderOutcome)
    (fields : List String) (strategy : AggregationStrategy) (elapsed now : Nat) :
    Except String SDKResponse := do
  let routingPlan := agg.fieldRouter.planWalletDataRouting fields
  let executions := walletAllExecutions agg behavior fields
  let aggregationResults ← aggregateFieldResults fields executions strategy
  let walletData := buildWalletData aggregationResults now
  let metadata := buildResponseMetadata executions elapsed now routingPlan
  pure { data := walletData, metadata := metadata, errors := extractErrors executions }

/-- `DataAggregator.aggregateWalletData`. -/
def aggregateWalletData (agg : DataAggregator) (behavior : String → ProviderOutcome)
    (fields : List String) (strategy? : Option AggregationStrategy) (elapsed now : Nat) :
    SDKResponse :=
  let strategy := strategy?.getD defaultAggregationStrategy
  match aggregateWalletDataCore agg behavior fields strategy elapsed now with
  | .ok r => r
  | .error msg => aggregatorCatchResponse msg elapsed now

/-- The `FieldRouter` constructor: register each provider, then install
the configured field priorities. -/
def FieldRouter.init (providers : List DataProvider) (fieldPriorities : JsMap (List String))
    (now : Nat) : FieldRouter :=
  let r : FieldRouter :=
    providers.foldl (fun r p => r.registerProvider p now)
      { providers := [], metrics := [], fieldPriorities := [] }
  fieldPriorities.foldl (fun r e => r.setFieldPriority e.1 e.2) r

/-- The `DataAggregator` constructor: builds the router and mirrors the
provider list into the aggregator's own map. -/
def DataAggregator.init (providers : List DataProvider)
    (fieldPriorities : JsMap (List String)) (now : Nat) : DataAggregator :=
  { fieldRouter := FieldRouter.init providers fieldPriorities now
    providers := providers.foldl (fun m p => jsSet m p.name p) [] }

/-! # Theorems -/

/-! ## C10 — `updateMetrics` on an unknown provider -/

/-- C10: calling `updateMetrics` with a provider name that has no metrics
record (never registered, or previously unregistered) is a no-op: the
router — metrics map, provider registry and field-priority map — is
returned unchanged, for every response time and success flag. -/
theorem updateMetrics_unknown_is_noop (r : FieldRouter) (name : String)
    (responseTime : ℚ) (success : Bool) (now : Nat)
    (h : jsGet r.metrics name = none) :
    r.updateMetrics name responseTime success now = r := by
  unfold FieldRouter.updateMetrics
  rw [h]

/-- A router whose only provider has been unregistered again. -/
def c10Router : FieldRouter :=
  (FieldRouter.init [⟨"p", ⟨some ["price"], none⟩⟩] [("price", ["p"])] 0).unregisterProvider "p"

/-- Witness for C10 at a previously-unregistered provider. -/
theorem updateMetrics_unknown_is_noop_witness :
    jsGet c10Router.metrics "p" = none ∧
    c10Router.updateMetrics "p" 42 true 7 = c10Router :=
  ⟨by decide, updateMetrics_unknown_is_noop c10Router "p" 42 true 7 (by decide)⟩

/-! ## C9 — retry delay bounds -/

/-- `round` (JS `Math.round`) maps a rational in `[a, b]` (integer ends)
into `[a, b]`. -/
theorem round_int_bounds {x : ℚ} {a b : ℤ} (ha : (a : ℚ) ≤ x) (hb : x ≤ (b : ℚ)) :
    a ≤ round x ∧ round x ≤ b := by
  constructor
  · rw [round_eq, Int.le_floor]
    linarith
  · rw [round_eq]
    have h : ⌊x + 1 / 2⌋ < b + 1 := by
      rw [Int.floor_lt]
      push_cast
      linarith
    omega

/-- C9: with `baseDelay = 100`, `backoffMultiplier = 2`, `maxDelay ≥ 250`
and jitter enabled, for every jitter draw `rand ∈ [0, 1]` the delay before
the second attempt (`calculateDelay` at attempt 1) lies in `[75, 125]` ms
and the delay before the third attempt (attempt 2) lies in `[150, 250]`
ms. -/
theorem retry_delay_within_bounds (cfg : RetryConfig) (rand : ℚ)
    (hbase : cfg.baseDelay = 100) (hmult : cfg.backoffMultiplier = 2)
    (hmax : 250 ≤ cfg.maxDelay) (hjit : cfg.jitter = true)
    (h0 : 0 ≤ rand) (h1 : rand ≤ 1) :
    (75 ≤ calculateDelay cfg 1 rand ∧ calculateDelay cfg 1 rand ≤ 125) ∧
    (150 ≤ calculateDelay cfg 2 rand ∧ calculateDelay cfg 2 rand ≤ 250) := by
  have e1 : calculateDelay cfg 1 rand =
      max 0 (round ((100 : ℚ) + (rand * 2 - 1) * (100 * (1 / 10)))) := by
    simp only [calculateDelay, hjit, hbase, hmult, if_true]
    norm_num [min_eq_left (show (100 : ℚ) ≤ cfg.maxDelay by linarith)]
  have e2 : calculateDelay cfg 2 rand =
      max 0 (round ((200 : ℚ) + (rand * 2 - 1) * (200 * (1 / 10)))) := by
    simp only [calculateDelay, hjit, hbase, hmult, if_true]
    norm_num [min_eq_left (show (200 : ℚ) ≤ cfg.maxDelay by linarith)]
  constructor
  · have hb := round_int_bounds (x := (100 : ℚ) + (rand * 2 - 1) * (100 * (1 / 10)))
      (a := 90) (b := 110) (by push_cast; nlinarith) (by push_cast; nlinarith)
    rw [e1, max_eq_right (by omega)]
    omega
  · have hb := round_int_bounds (x := (200 : ℚ) + (rand * 2 - 1) * (200 * (1 / 10)))
      (a := 180) (b := 220) (by push_cast; nlinarith) (by push_cast; nlinarith)
    rw [e2, max_eq_right (by omega)]
    omega

/-- Witness for C9 at a concrete configuration and jitter draw. -/
theorem retry_delay_within_bounds_witness :
    let cfg : RetryConfig :=
      { maxAttempts := 3, baseDelay := 100, maxDelay := 250, backoffMultiplier := 2,
        jitter := true }
    (75 ≤ calculateDelay cfg 1 (1 / 2) ∧ calculateDelay cfg 1 (1 / 2) ≤ 125) ∧
    (150 ≤ calculateDelay cfg 2 (1 / 2) ∧ calculateDelay cfg 2 (1 / 2) ≤ 250) :=
  retry_delay_within_bounds _ _ rfl rfl (by norm_num) rfl (by norm_num) (by norm_num)

/-! ## C2 — circuit breaker: failures in half-open -/

/-- `onSuccess` never newly opens the breaker. -/
theorem onSuccess_phase (s : CBState) :
    (onSuccess s).phase = .opened → s.phase = .opened := by
  unfold onSuccess
  by_cases h : s.phase = .halfOpen
  · rw [if_pos h]
    by_cases hf : s.failures - 1 = 0 <;> simp [hf, h]
  · rw [if_neg h]
    exact fun hp => hp

/-- `onFailure` opens the breaker exactly when the incremented count
reaches the threshold; otherwise the phase is unchanged. -/
theorem onFailure_phase (cfg : BreakerConfig) (s : CBState) (now : Nat) :
    (onFailure cfg s now).phase = .opened →
      s.phase = .opened ∨ cfg.failureThreshold ≤ (onFailure cfg s now).failures := by
  unfold onFailure
  by_cases h : cfg.failureThreshold ≤ s.failures + 1
  · exact fun _ => Or.inr h
  · simp only [if_neg h]
    exact fun hp => Or.inl hp

/-- Invariant: every reachable state whose phase is `open` carries at
least `failureThreshold` recorded failures. -/
theorem cb_opened_threshold {cfg : BreakerConfig} {s : CBState} (h : CBReachable cfg s) :
    s.phase = .opened → cfg.failureThreshold ≤ s.failures := by
  induction h with
  | init => intro hp; simp [CBState.init] at hp
  | reset _ _ => intro hp; simp [CBState.reset] at hp
  | step s now ok _ ih =>
      intro hp
      unfold CBState.execute at hp ⊢
      by_cases h1 : s.phase = .opened
      · rw [if_pos h1] at hp ⊢
        by_cases h2 : shouldAttemptRecovery cfg s now = true
        · rw [if_pos h2] at hp ⊢
          cases ok with
          | true =>
              simp only [if_true] at hp ⊢
              exact absurd (onSuccess_phase _ hp) (by simp)
          | false =>
              simp only [Bool.false_eq_true, if_false] at hp ⊢
              rcases onFailure_phase cfg _ now hp with h3 | h3
              · exact absurd h3 (by simp)
              · exact h3
        · rw [if_neg h2] at hp ⊢
          exact ih h1
      · rw [if_neg h1] at hp ⊢
        cases ok with
        | true =>
            simp only [if_true] at hp ⊢
            exact absurd (onSuccess_phase _ hp) h1
        | false =>
            simp only [Bool.false_eq_true, if_false] at hp ⊢
            rcases onFailure_phase cfg s now hp with h3 | h3
            · exact absurd h3 h1
            · exact h3

/-- C2 (amended): in every reachable breaker state, a guarded-call failure
that runs in the half-open state returns the breaker to `open` exactly
when the incremented failure count reaches `failureThreshold`.  In
particular the trial call that moves the breaker from `open` into
half-open always reopens it on failure (the invariant gives `failures ≥
failureThreshold` there); but after two or more successes in half-open a
further failure can leave the breaker half-open. -/
theorem halfopen_failure_reopens (cfg : BreakerConfig) (s : CBState)
    (hreach : CBReachable cfg s) :
    (s.phase = .opened → ∀ now, shouldAttemptRecovery cfg s now = true →
      (CBState.execute cfg s now false).1.phase = .opened) ∧
    (s.phase = .halfOpen → ∀ now,
      ((CBState.execute cfg s now false).1.phase = .opened ↔
        cfg.failureThreshold ≤ s.failures + 1)) := by
  constructor
  · intro hp now hrec
    have hth := cb_opened_threshold hreach hp
    unfold CBState.execute
    rw [if_pos hp, if_pos hrec]
    simp only [Bool.false_eq_true, if_false]
    unfold onFailure
    simp only
    rw [if_pos (by omega)]
  · intro hp now
    unfold CBState.execute
    rw [if_neg (by rw [hp]; simp)]
    simp only [Bool.false_eq_true, if_false]
    unfold onFailure
    by_cases h : cfg.failureThreshold ≤ s.failures + 1
    · simp [h]
    · simp [h, hp]

/-- Five consecutive failures at times 0..4. -/
def cbFiveFailures : List (Nat × Bool) := [(0, false), (1, false), (2, false), (3, false), (4, false)]

/-- The breaker after five failures under the default configuration:
open, `failures = 5`. -/
def cbOpenState : CBState := cbRun defaultBreakerConfig CBState.init cbFiveFailures

/-- The breaker after five failures, recovery into half-open and three
trial successes: half-open with `failures = 2`. -/
def cbHalfOpenState : CBState :=
  cbRun defaultBreakerConfig CBState.init
    (cbFiveFailures ++ [(70000, true), (70001, true), (70002, true)])

/-- C2 counterexample: with the default configuration there is a reachable
half-open state (five failures, recovery, three trial successes) in which
a guarded-call failure runs and leaves the breaker half-open — not open as
the claim states. -/
theorem halfopen_failure_stays_halfopen_counterexample :
    CBReachable defaultBreakerConfig cbHalfOpenState ∧
    cbHalfOpenState.phase = .halfOpen ∧
    (CBState.execute defaultBreakerConfig cbHalfOpenState 70010 false).2 = .ran false ∧
    ¬((CBState.execute defaultBreakerConfig cbHalfOpenState 70010 false).1.phase = .opened) :=
  ⟨cbRun_reachable _ _ _ CBReachable.init, by decide, by decide, by decide⟩

/-- Witness for C2 (amended): the trial failure taken directly from the
reachable open state reopens the breaker. -/
theorem halfopen_failure_reopens_witness :
    (CBState.execute defaultBreakerConfig cbOpenState 70000 false).1.phase = .opened :=
  (halfopen_failure_reopens defaultBreakerConfig cbOpenState
    (cbRun_reachable _ _ _ CBReachable.init)).1 (by decide) 70000 (by decide)

/-! ## Cache lemmas shared by C5, C6, C7 -/

@[simp] theorem updateMemoryUsage_cache (c : MemoryCache) :
    c.updateMemoryUsage.cache = c.cache := by
  unfold MemoryCache.updateMemoryUsage; split <;> rfl

@[simp] theorem updateMemoryUsage_order (c : MemoryCache) :
    c.updateMemoryUsage.order = c.order := by
  unfold MemoryCache.updateMemoryUsage; split <;> rfl

@[simp] theorem updateMemoryUsage_options (c : MemoryCache) :
    c.updateMemoryUsage.options = c.options := by
  unfold MemoryCache.updateMemoryUsage; split <;> rfl

@[simp] theorem moveToHead_cache (c : MemoryCache) (k : String) :
    (c.moveToHead k).cache = c.cache := by
  unfold MemoryCache.moveToHead
  cases h : c.order with
  | nil => rfl
  | cons hd tl => dsimp only; split <;> rfl

@[simp] theorem incrementHits_cache (c : MemoryCache) :
    c.incrementHits.cache = c.cache := by
  unfold MemoryCache.incrementHits; split <;> rfl

@[simp] theorem incrementHits_order (c : MemoryCache) :
    c.incrementHits.order = c.order := by
  unfold MemoryCache.incrementHits; split <;> rfl

@[simp] theorem incrementHits_options (c : MemoryCache) :
    c.incrementHits.options = c.options := by
  unfold MemoryCache.incrementHits; split <;> rfl

@[simp] theorem incrementMisses_cache (c : MemoryCache) :
    c.incrementMisses.cache = c.cache := by
  unfold MemoryCache.incrementMisses; split <;> rfl

@[simp] theorem incrementMisses_order (c : MemoryCache) :
    c.incrementMisses.order = c.order := by
  unfold MemoryCache.incrementMisses; split <;> rfl

@[simp] theorem incrementMisses_options (c : MemoryCache) :
    c.incrementMisses.options = c.options := by
  unfold MemoryCache.incrementMisses; split <;> rfl

@[simp] theorem moveToHead_options (c : MemoryCache) (k : String) :
    (c.moveToHead k).options = c.options := by
  unfold MemoryCache.moveToHead
  cases h : c.order with
  | nil => rfl
  | cons hd tl => dsimp only; split <;> rfl

/-- The recency order produced by `moveToHead`. -/
def bumpOrder (order : List String) (key : String) : List String :=
  match order with
  | [] => []
  | k :: _ => if k = key then order else key :: order.erase key

@[simp] theorem moveToHead_order (c : MemoryCache) (k : String) :
    (c.moveToHead k).order = bumpOrder c.order k := by
  unfold MemoryCache.moveToHead bumpOrder
  cases h : c.order with
  | nil => simpa using h
  | cons hd tl => dsimp only; split <;> simp [h]

/-- The entry freshly written by `set`. -/
def mkSetEntry (opts : CacheOptions) (v : Value) (ttl : Option Nat) (now : Nat) : CacheEntry :=
  { value := v, ttl := (ttl.getD opts.defaultTtl) * 1000, createdAt := now,
    expiresAt := now + (ttl.getD opts.defaultTtl) * 1000, accessCount := 0,
    lastAccessed := now }

/-- After `set key`, looking the key up yields the fresh entry —
whichever branch (overwrite, plain insert, insert with eviction) ran. -/
theorem set_jsGet_self (c : MemoryCache) (key : String) (v : Value) (ttl : Option Nat)
    (now : Nat) :
    jsGet ((c.set key v ttl now).1).cache key = some (mkSetEntry c.options v ttl now) := by
  unfold MemoryCache.set mkSetEntry
  cases h : jsGet c.cache key with
  | some e => simp [h]
  | none => simp [h]

/-- `set` on an absent key with room to spare: plain insert. -/
theorem set_new_no_evict (c : MemoryCache) (key : String) (v : Value) (ttl : Option Nat)
    (now : Nat) (habs : jsGet c.cache key = none)
    (hlen : c.cache.length < c.options.maxSize) :
    ((c.set key v ttl now).1.cache = jsSet c.cache key (mkSetEntry c.options v ttl now)) ∧
    ((c.set key v ttl now).1.order = key :: c.order) ∧
    ((c.set key v ttl now).1.options = c.options) ∧
    ((c.set key v ttl now).2 = [(.set, key)]) := by
  unfold MemoryCache.set mkSetEntry
  simp [habs, Nat.not_le.mpr hlen]


/-- `set` on an absent key at capacity: the tail of the recency list is
evicted first. -/
theorem set_new_evict (c : MemoryCache) (key : String) (v : Value) (ttl : Option Nat)
    (now : Nat) (lru : String) (habs : jsGet c.cache key = none)
    (hlen : c.options.maxSize ≤ c.cache.length) (hlast : c.order.getLast? = some lru) :
    ((c.set key v ttl now).1.cache =
      jsSet (jsDelete c.cache lru) key (mkSetEntry c.options v ttl now)) ∧
    ((c.set key v ttl now).1.order = key :: c.order.erase lru) ∧
    ((c.set key v ttl now).1.options = c.options) ∧
    ((c.set key v ttl now).2 = [(.evicted, lru), (.set, key)]) := by
  unfold MemoryCache.set MemoryCache.evictLRU MemoryCache.deleteNode mkSetEntry
  simp [habs, hlen, hlast]

/-- `get` on a present, non-expired key: bump access metadata, move the
node to the head, emit a hit. -/
theorem get_hit (c : MemoryCache) (key : String) (now : Nat) (entry : CacheEntry)
    (hget : jsGet c.cache key = some entry) (hexp : isExpired entry now = false) :
    ((c.get key now).1.cache =
      jsSet c.cache key { entry with accessCount := entry.accessCount + 1,
                                     lastAccessed := now }) ∧
    ((c.get key now).1.order = bumpOrder c.order key) ∧
    ((c.get key now).1.options = c.options) ∧
    ((c.get key now).2.1 = some entry.value) ∧
    ((c.get key now).2.2 = [(.hit, key)]) := by
  unfold MemoryCache.get
  simp [hget, hexp]

/-! ## C7 — zero TTL -/

/-- C7 (amended): an entry stored with `set(key, value, 0)` at time `t` is
expired for every strictly later `Date.now()` reading — `get` then returns
null — while a `get` within the very same millisecond still returns the
stored value (the claim's "including within the same millisecond" fails:
`isExpired` is `now > expiresAt` and `expiresAt = t`). -/
theorem zero_ttl_entry_semantics (c : MemoryCache) (key : String) (v : Value) (t t' : Nat)
    (h : t < t') :
    (((c.set key v (some 0) t).1.get key t').2.1 = none) ∧
    (((c.set key v (some 0) t).1.get key t).2.1 = some v) := by
  have hs := set_jsGet_self c key v (some 0) t
  have he : mkSetEntry c.options v (some 0) t =
      { value := v, ttl := 0, createdAt := t, expiresAt := t, accessCount := 0,
        lastAccessed := t } := by
    simp [mkSetEntry]
  rw [he] at hs
  constructor
  · unfold MemoryCache.get
    simp [hs, isExpired, h]
  · unfold MemoryCache.get
    simp [hs, isExpired]

/-- Witness for C7 (amended) at a concrete cache and key. -/
theorem zero_ttl_entry_semantics_witness :
    ((((MemoryCache.init { defaultTtl := 300, maxSize := 1000, enableStats := true }).set
        "k" (.vNum 1) (some 0) 0).1.get "k" 1).2.1 = none) ∧
    ((((MemoryCache.init { defaultTtl := 300, maxSize := 1000, enableStats := true }).set
        "k" (.vNum 1) (some 0) 0).1.get "k" 0).2.1 = some (.vNum 1)) := by
  have h := zero_ttl_entry_semantics
    (MemoryCache.init { defaultTtl := 300, maxSize := 1000, enableStats := true })
    "k" (.vNum 1) 0 1 (by decide)
  exact ⟨h.1, h.2⟩

/-- C7 counterexample: a `get` in the same millisecond as `set(key, v, 0)`
returns the stored value, not null. -/
theorem zero_ttl_same_ms_counterexample :
    ¬((((MemoryCache.init { defaultTtl := 300, maxSize := 1000, enableStats := true }).set
        "k" (Value.vNum 1) (some 0) 0).1.get "k" 0).2.1 = none) ∧
    ((((MemoryCache.init { defaultTtl := 300, maxSize := 1000, enableStats := true }).set
        "k" (Value.vNum 1) (some 0) 0).1.get "k" 0).2.1 = some (Value.vNum 1)) := by
  constructor
  · decide
  · decide

/-! ## C6 — LRU eviction order -/

/-- C6: on a cache with `maxSize = 3` and non-expiring entries, after
`set k1; set k2; set k3; get k1; set k4` on four distinct keys, key `k2`
(least recently used at the fourth insertion) has been evicted — the
fourth `set` emits the `evicted` event for `k2` — while `k1`, `k3` and
`k4` are all still present. -/
theorem lru_evicts_second_oldest (opts : CacheOptions) (k1 k2 k3 k4 : String)
    (v1 v2 v3 v4 : Value) (t1 t2 t3 t4 tg : Nat)
    (hmax : opts.maxSize = 3)
    (h12 : k1 ≠ k2) (h13 : k1 ≠ k3) (h14 : k1 ≠ k4)
    (h23 : k2 ≠ k3) (h24 : k2 ≠ k4) (h34 : k3 ≠ k4)
    (hfresh : tg ≤ t1 + opts.defaultTtl * 1000) :
    let s1 := ((MemoryCache.init opts).set k1 v1 none t1).1
    let s2 := (s1.set k2 v2 none t2).1
    let s3 := (s2.set k3 v3 none t3).1
    let s4 := (s3.get k1 tg).1
    let res := s4.set k4 v4 none t4
    jsGet res.1.cache k2 = none ∧
    (jsGet res.1.cache k1).isSome = true ∧
    (jsGet res.1.cache k3).isSome = true ∧
    (jsGet res.1.cache k4).isSome = true ∧
    res.2 = [(.evicted, k2), (.set, k4)] := by
  intro s1 s2 s3 s4 res
  have hinit_opts : (MemoryCache.init opts).options = opts := rfl
  -- step 1: insert k1
  have h1 := set_new_no_evict (MemoryCache.init opts) k1 v1 none t1 rfl
    (by simp [MemoryCache.init, hmax])
  have hc1 : s1.cache = [(k1, mkSetEntry opts v1 none t1)] := by
    show ((MemoryCache.init opts).set k1 v1 none t1).1.cache = _
    rw [h1.1]; rfl
  have ho1 : s1.order = [k1] := by
    show ((MemoryCache.init opts).set k1 v1 none t1).1.order = _
    rw [h1.2.1]; rfl
  have hopt1 : s1.options = opts := by
    show ((MemoryCache.init opts).set k1 v1 none t1).1.options = _
    rw [h1.2.2.1]
    exact hinit_opts
  -- step 2: insert k2
  have h2 := set_new_no_evict s1 k2 v2 none t2
    (by rw [hc1]; simp [jsGet, h12]) (by rw [hc1, hopt1, hmax]; norm_num)
  have hc2 : s2.cache = [(k1, mkSetEntry opts v1 none t1), (k2, mkSetEntry opts v2 none t2)] := by
    show (s1.set k2 v2 none t2).1.cache = _
    rw [h2.1, hc1, hopt1]
    simp [jsSet, h12]
  have ho2 : s2.order = [k2, k1] := by
    show (s1.set k2 v2 none t2).1.order = _
    rw [h2.2.1, ho1]
  have hopt2 : s2.options = opts := by
    show (s1.set k2 v2 none t2).1.options = _
    rw [h2.2.2.1, hopt1]
  -- step 3: insert k3
  have h3 := set_new_no_evict s2 k3 v3 none t3
    (by rw [hc2]; simp [jsGet, h13, h23]) (by rw [hc2, hopt2, hmax]; norm_num)
  have hc3 : s3.cache = [(k1, mkSetEntry opts v1 none t1), (k2, mkSetEntry opts v2 none t2),
      (k3, mkSetEntry opts v3 none t3)] := by
    show (s2.set k3 v3 none t3).1.cache = _
    rw [h3.1, hc2, hopt2]
    simp [jsSet, h13, h23]
  have ho3 : s3.order = [k3, k2, k1] := by
    show (s2.set k3 v3 none t3).1.order = _
    rw [h3.2.1, ho2]
  have hopt3 : s3.options = opts := by
    show (s2.set k3 v3 none t3).1.options = _
    rw [h3.2.2.1, hopt2]
  -- step 4: get k1 (a hit), which bumps k1 to the head
  have h4 := get_hit s3 k1 tg (mkSetEntry opts v1 none t1)
    (by rw [hc3]; simp [jsGet])
    (by simp [isExpired, mkSetEntry]; omega)
  have hc4 : s4.cache = [(k1, { mkSetEntry opts v1 none t1 with accessCount := 1, lastAccessed := tg }), (k2, mkSetEntry opts v2 none t2), (k3, mkSetEntry opts v3 none t3)] := by
    show (s3.get k1 tg).1.cache = _
    rw [h4.1, hc3]
    simp [jsSet, mkSetEntry]
  have ho4 : s4.order = [k1, k3, k2] := by
    show (s3.get k1 tg).1.order = _
    rw [h4.2.1, ho3]
    simp [bumpOrder, Ne.symm h13, List.erase_cons, Ne.symm h12]
  have hopt4 : s4.options = opts := by
    show (s3.get k1 tg).1.options = _
    rw [h4.2.2.1, hopt3]
  -- step 5: insert k4, evicting the LRU key k2
  have h5 := set_new_evict s4 k4 v4 none t4 k2
    (by rw [hc4]; simp [jsGet, h14, h24, h34])
    (by rw [hc4, hopt4, hmax]; norm_num)
    (by rw [ho4]; rfl)
  have hc5 : res.1.cache = [(k1, { mkSetEntry opts v1 none t1 with accessCount := 1, lastAccessed := tg }), (k3, mkSetEntry opts v3 none t3), (k4, mkSetEntry opts v4 none t4)] := by
    show (s4.set k4 v4 none t4).1.cache = _
    rw [h5.1, hc4, hopt4]
    simp [jsSet, jsDelete, h12, h14, h34, Ne.symm h23]
  refine ⟨?_, ?_, ?_, ?_, ?_⟩
  · rw [hc5]; simp [jsGet, h12, Ne.symm h23, Ne.symm h24]
  · rw [hc5]; simp [jsGet]
  · rw [hc5]; simp [jsGet, h13]
  · rw [hc5]; simp [jsGet, h14, h34]
  · show (s4.set k4 v4 none t4).2 = _
    rw [h5.2.2.2]

/-- Witness for C6 at concrete keys, values and times. -/
theorem lru_evicts_second_oldest_witness :
    let opts : CacheOptions := { defaultTtl := 300, maxSize := 3, enableStats := true }
    let s1 := ((MemoryCache.init opts).set "k1" (.vNum 1) none 0).1
    let s2 := (s1.set "k2" (.vNum 2) none 1).1
    let s3 := (s2.set "k3" (.vNum 3) none 2).1
    let s4 := (s3.get "k1" 3).1
    let res := s4.set "k4" (.vNum 4) none 4
    jsGet res.1.cache "k2" = none ∧
    (jsGet res.1.cache "k1").isSome = true ∧
    (jsGet res.1.cache "k3").isSome = true ∧
    (jsGet res.1.cache "k4").isSome = true ∧
    res.2 = [(.evicted, "k2"), (.set, "k4")] :=
  lru_evicts_second_oldest { defaultTtl := 300, maxSize := 3, enableStats := true }
    "k1" "k2" "k3" "k4" (.vNum 1) (.vNum 2) (.vNum 3) (.vNum 4) 0 1 2 4 3
    rfl (by decide) (by decide) (by decide) (by decide) (by decide) (by decide)
    (by norm_num)

/-! ## C5 — cache events -/

theorem jsDelete_length {α : Type} {m : JsMap α} {k : String} {v : α}
    (h : jsGet m k = some v) : (jsDelete m k).length + 1 = m.length := by
  induction m with
  | nil => simp [jsGet] at h
  | cons hd tl ih =>
      obtain ⟨k0, v0⟩ := hd
      by_cases h0 : k0 = k
      · simp [jsDelete, h0]
      · simp only [jsGet, if_neg h0] at h
        simp [jsDelete, h0, ih h]

/-- C5 (amended): each mutating operation fires its typed event — `set`
fires `set` (preceded by `evicted` naming the LRU key when the insert
evicts), `delete` on a present key fires `delete`, `clear` fires `clear`,
lazy expiry discovered during `get` fires `expired` — except that lazy
expiry discovered during `has` removes the entry while firing no event at
all (the one case the claim gets wrong).  Every emitted event is forwarded
to every registered listener by `emitEvent`. -/
theorem cache_mutations_fire_events (c : MemoryCache) (key : String) (v : Value)
    (ttl : Option Nat) (now : Nat) (entry : CacheEntry) (lru : String) :
    ((CacheEvent.set, key) ∈ (c.set key v ttl now).2) ∧
    (jsGet c.cache key = some entry → (c.delete key).2.2 = [(.delete, key)]) ∧
    (c.clear.2 = [(.clear, "")]) ∧
    (jsGet c.cache key = some entry → isExpired entry now = true →
      (c.get key now).2.2 = [(.expired, key)]) ∧
    (jsGet c.cache key = none → c.options.maxSize ≤ c.cache.length →
      c.order.getLast? = some lru →
      (c.set key v ttl now).2 = [(.evicted, lru), (.set, key)]) ∧
    (jsGet c.cache key = some entry → isExpired entry now = true →
      (c.has key now).2.2 = [] ∧ (c.has key now).1.cache.length + 1 = c.cache.length) := by
  refine ⟨?_, ?_, ?_, ?_, ?_, ?_⟩
  · unfold MemoryCache.set
    cases h : jsGet c.cache key with
    | some e => simp [h]
    | none => simp [h]
  · intro h
    unfold MemoryCache.delete
    rw [h]
  · rfl
  · intro h hexp
    unfold MemoryCache.get
    simp [h, hexp]
  · intro habs hlen hlast
    exact (set_new_evict c key v ttl now lru habs hlen hlast).2.2.2
  · intro h hexp
    unfold MemoryCache.has
    refine ⟨by simp [h, hexp], ?_⟩
    simp only [h, hexp, if_true]
    simpa [MemoryCache.deleteNode] using jsDelete_length h

/-- A cache holding one already-expired entry under key `"k"`. -/
def cExpired : MemoryCache :=
  ((MemoryCache.init { defaultTtl := 300, maxSize := 1000, enableStats := true }).set
    "k" (.vNum 1) (some 0) 0).1

/-- A full one-slot cache holding key `"a"`. -/
def cOneSlot : MemoryCache :=
  ((MemoryCache.init { defaultTtl := 300, maxSize := 1, enableStats := true }).set
    "a" (.vNum 1) none 0).1

/-- Witness for C5 (amended) at concrete caches. -/
theorem cache_mutations_fire_events_witness :
    ((CacheEvent.set, "k") ∈ (cExpired.set "k" (.vNum 2) none 1).2) ∧
    ((cExpired.delete "k").2.2 = [(.delete, "k")]) ∧
    (cExpired.clear.2 = [(.clear, "")]) ∧
    ((cExpired.get "k" 1).2.2 = [(.expired, "k")]) ∧
    ((cOneSlot.set "b" (.vNum 2) none 5).2 = [(.evicted, "a"), (.set, "b")]) ∧
    ((cExpired.has "k" 1).2.2 = [] ∧
      (cExpired.has "k" 1).1.cache.length + 1 = cExpired.cache.length) := by
  have h1 := cache_mutations_fire_events cExpired "k" (.vNum 2) none 1
    ⟨.vNum 1, 0, 0, 0, 0, 0⟩ "a"
  have h2 := cache_mutations_fire_events cOneSlot "b" (.vNum 2) none 5
    ⟨.vNum 1, 0, 0, 0, 0, 0⟩ "a"
  exact ⟨h1.1, h1.2.1 (by decide), h1.2.2.1, h1.2.2.2.1 (by decide) (by decide),
    h2.2.2.2.2.1 (by decide) (by decide) (by decide),
    h1.2.2.2.2.2 (by decide) (by decide)⟩

/-- C5 counterexample: lazy expiry during `has` removes the entry from the
store while firing no event to the listeners (the claim requires an
`expired` event for this mutation). -/
theorem has_expiry_fires_no_event_counterexample :
    jsGet cExpired.cache "k" = some ⟨.vNum 1, 0, 0, 0, 0, 0⟩ ∧
    jsGet (cExpired.has "k" 1).1.cache "k" = none ∧
    (cExpired.has "k" 1).2.2 = [] := by
  refine ⟨by decide, by decide, by decide⟩

/-! ## C8 — routing-plan presence -/

/-- The per-field step of `planTokenDataRouting`. -/
def tokenPlanStep (r : FieldRouter) (plan : JsMap RoutingPlan) (f : String) :
    JsMap RoutingPlan :=
  match r.createRoutingPlan f (r.getProvidersForTokenField f) r.getRoutingStrategy with
  | some rp => jsSet plan f rp
  | none => plan

theorem planTokenDataRouting_eq_foldl (r : FieldRouter) (fields : List String) :
    r.planTokenDataRouting fields = fields.foldl (tokenPlanStep r) [] := rfl

theorem tokenPlan_foldl_not_mem (r : FieldRouter) (fields : List String) (field : String)
    (acc : JsMap RoutingPlan) (h : field ∉ fields) :
    jsGet (fields.foldl (tokenPlanStep r) acc) field = jsGet acc field := by
  induction fields generalizing acc with
  | nil => rfl
  | cons f fs ih =>
      have hne : field ≠ f := fun hc => h (hc ▸ List.mem_cons_self f fs)
      have hns : field ∉ fs := fun hc => h (List.mem_cons_of_mem f hc)
      rw [List.foldl_cons, ih _ hns]
      unfold tokenPlanStep
      cases r.createRoutingPlan f (r.getProvidersForTokenField f) r.getRoutingStrategy with
      | some rp => exact jsGet_jsSet_ne acc f field rp (Ne.symm hne)
      | none => rfl

theorem tokenPlan_foldl_get (r : FieldRouter) (fields : List String) (field : String)
    (acc : JsMap RoutingPlan) (hmem : field ∈ fields) :
    jsGet (fields.foldl (tokenPlanStep r) acc) field =
      match r.createRoutingPlan field (r.getProvidersForTokenField field)
          r.getRoutingStrategy with
      | some rp => some rp
      | none => jsGet acc field := by
  induction fields generalizing acc with
  | nil => cases hmem
  | cons f fs ih =>
      rw [List.foldl_cons]
      by_cases hfs : field ∈ fs
      · rw [ih _ hfs]
        cases h : r.createRoutingPlan field (r.getProvidersForTokenField field)
            r.getRoutingStrategy with
        | some rp => rfl
        | none =>
            by_cases hf : field = f
            · subst hf
              unfold tokenPlanStep
              simp [h]
            · unfold tokenPlanStep
              cases r.createRoutingPlan f (r.getProvidersForTokenField f)
                  r.getRoutingStrategy with
              | some rp => exact jsGet_jsSet_ne acc f field rp (Ne.symm hf)
              | none => rfl
      · have hf : field = f := by
          rcases List.mem_cons.mp hmem with h | h
          · exact h
          · exact absurd h hfs
        subst hf
        rw [tokenPlan_foldl_not_mem r fs field _ hfs]
        unfold tokenPlanStep
        cases h : r.createRoutingPlan field (r.getProvidersForTokenField field)
            r.getRoutingStrategy with
        | some rp => simp [h]
        | none => rfl

/-- Every candidate returned by `getProvidersForTokenField` is a key of
the provider registry. -/
theorem mem_avail_ne_empty (r : FieldRouter) (field : String)
    (hnames : ∀ e ∈ r.providers, e.1 ≠ "") :
    ∀ p ∈ r.getProvidersForTokenField field, p ≠ "" := by
  intro p hp
  unfold FieldRouter.getProvidersForTokenField at hp
  rcases List.mem_map.mp hp with ⟨e, he, rfl⟩
  exact hnames e (List.mem_filter.mp he).1

/-- A registered capable provider yields a candidate. -/
theorem avail_of_capable (r : FieldRouter) (field a : String) (pa : DataProvider)
    (hga : jsGet r.providers a = some pa) (la : List String)
    (hcap : pa.capabilities.tokenData = some la) (hfield : field ∈ la) :
    a ∈ r.getProvidersForTokenField field := by
  unfold FieldRouter.getProvidersForTokenField
  refine List.mem_map.mpr ⟨(a, pa), List.mem_filter.mpr ⟨jsGet_mem hga, ?_⟩, rfl⟩
  simp only [hcap]
  simpa [List.contains] using List.elem_iff.mpr hfield

/-- Under the `'priority'` strategy the chosen primary of a non-empty
candidate list is a non-empty name. -/
theorem getOptimal_priority_some (r : FieldRouter) (field : String)
    (avail : List String) (hne : avail ≠ []) (hav : ∀ p ∈ avail, p ≠ "") :
    ∃ p, r.getOptimalProvider field avail .priority = some p ∧ p ≠ "" := by
  cases avail with
  | nil => exact absurd rfl hne
  | cons p tl =>
      cases tl with
      | nil =>
          have hp : p ≠ "" := hav p (List.mem_cons_self _ _)
          exact ⟨p, by simp [FieldRouter.getOptimalProvider, hp], hp⟩
      | cons q rest =>
          refine ⟨FieldRouter.getProviderByPriority r field (p :: q :: rest), rfl, ?_⟩
          unfold FieldRouter.getProviderByPriority
          cases hpr : jsGet r.fieldPriorities field with
          | none => exact hav p (List.mem_cons_self _ _)
          | some priorities =>
              dsimp only
              cases hfind : priorities.find? (fun x => (p :: q :: rest).contains x) with
              | none => exact hav p (List.mem_cons_self _ _)
              | some x =>
                  have hx := List.find?_some hfind
                  have : x ∈ p :: q :: rest := by
                    simpa [List.contains_iff_exists_mem_beq] using hx
                  exact hav x this

/-- C8 (amended): assuming provider names and priority entries are
non-empty strings, a requested field is absent from the token routing plan
exactly when no registered provider declares the field AND no *non-empty*
priority list is configured for it (an empty configured list still yields
no plan); and when no capable provider exists but a non-empty priority
list does, the emitted plan names the list's head as primary with
estimated success rate 0. -/
theorem token_plan_presence (r : FieldRouter) (fields : List String) (field : String)
    (hnames : ∀ e ∈ r.providers, e.1 ≠ "")
    (hpr : ∀ e ∈ r.fieldPriorities, ∀ p ∈ e.2, p ≠ "")
    (hmem : field ∈ fields) :
    ((jsGet (r.planTokenDataRouting fields) field).isSome ↔
      (r.getProvidersForTokenField field ≠ [] ∨
        ∃ ps, jsGet r.fieldPriorities field = some ps ∧ ps ≠ [])) ∧
    (∀ p rest, r.getProvidersForTokenField field = [] →
      jsGet r.fieldPriorities field = some (p :: rest) →
      jsGet (r.planTokenDataRouting fields) field =
        some { field := field, provider := p, fallbackProviders := rest,
               estimated := { responseTime := 1000, successRate := 0, cost := some 0 } }) := by
  rw [planTokenDataRouting_eq_foldl]
  rw [tokenPlan_foldl_get r fields field [] hmem]
  constructor
  · cases havail : r.getProvidersForTokenField field with
    | nil =>
        unfold FieldRouter.createRoutingPlan
        simp only [FieldRouter.getRoutingStrategy, FieldRouter.getOptimalProvider, strFalsy,
          if_true]
        cases hp : jsGet r.fieldPriorities field with
        | none => simp [jsGet]
        | some ps =>
            cases ps with
            | nil => simp [hp, jsGet]
            | cons p rest =>
                have hpne : p ≠ "" :=
                  hpr (field, p :: rest) (jsGet_mem hp) p (List.mem_cons_self _ _)
                simp [hp, hpne]
    | cons a tl =>
        rcases getOptimal_priority_some r field (a :: tl) (by simp)
          (havail ▸ mem_avail_ne_empty r field hnames) with ⟨p, hopt, hp⟩
        unfold FieldRouter.createRoutingPlan
        rw [show r.getRoutingStrategy = .priority from rfl, hopt]
        simp [strFalsy, hp, havail]
  · intro p rest havail hp
    unfold FieldRouter.createRoutingPlan
    rw [havail]
    have hpne : p ≠ "" := hpr (field, p :: rest) (jsGet_mem hp) p (List.mem_cons_self _ _)
    simp [FieldRouter.getRoutingStrategy, FieldRouter.getOptimalProvider, strFalsy, hp, hpne]

/-- The router of the C8 counterexample: no providers, an *empty* priority
list configured for `"price"`. -/
def c8Router : FieldRouter :=
  { providers := [], metrics := [], fieldPriorities := [("price", [])] }

/-- C8 counterexample: with an empty priority list configured for a field
and no capable provider, the field is absent from the plan even though a
priority list *is* configured for it — refuting the claimed equivalence
"absent exactly when no capable provider and no configured priority
list". -/
theorem token_plan_presence_counterexample :
    ¬((jsGet (c8Router.planTokenDataRouting ["price"]) "price").isSome ↔
      (c8Router.getProvidersForTokenField "price" ≠ [] ∨
        jsGet c8Router.fieldPriorities "price" ≠ none)) := by
  decide

/-- A router with one capable provider for `"name"` and a priority list
naming the unregistered `"beta"` for `"price"`. -/
def c8WitnessRouter : FieldRouter :=
  FieldRouter.init [⟨"alpha", ⟨some ["name"], none⟩⟩] [("price", ["beta"])] 0

/-- Witness for C8 (amended) at a concrete router. -/
theorem token_plan_presence_witness :
    (jsGet (c8WitnessRouter.planTokenDataRouting ["price", "name"]) "name").isSome ∧
    jsGet (c8WitnessRouter.planTokenDataRouting ["price", "name"]) "price" =
      some { field := "price", provider := "beta", fallbackProviders := [],
             estimated := { responseTime := 1000, successRate := 0, cost := some 0 } } := by
  have h1 := token_plan_presence c8WitnessRouter ["price", "name"] "name"
    (by decide) (by decide) (by decide)
  have h2 := token_plan_presence c8WitnessRouter ["price", "name"] "price"
    (by decide) (by decide) (by decide)
  exact ⟨h1.1.mpr (Or.inl (by decide)), h2.2 "beta" [] (by decide) (by decide)⟩

/-! ## Aggregator lemmas shared by C1, C3, C4 -/

theorem addUnique_ne_nil (l : List UniqueValue) (pv : String × Value) :
    addUnique l pv ≠ [] := by
  cases l with
  | nil => simp [addUnique]
  | cons u rest =>
      unfold addUnique
      split <;> simp

theorem foldl_addUnique_ne_nil (values : List (String × Value)) :
    ∀ acc : List UniqueValue, acc ≠ [] ∨ values ≠ [] → values.foldl addUnique acc ≠ [] := by
  induction values with
  | nil =>
      intro acc h
      rcases h with h | h
      · exact h
      · exact absurd rfl h
  | cons v vs ih =>
      intro acc _
      rw [List.foldl_cons]
      exact ih _ (Or.inl (addUnique_ne_nil acc v))

theorem getUniqueValues_ne_nil {values : List (String × Value)} (h : values ≠ []) :
    getUniqueValues values ≠ [] :=
  foldl_addUnique_ne_nil values [] (Or.inr h)

theorem resolveBypriority_ok (field : String) (values : List (String × Value))
    (uniqueValues : List UniqueValue) (h : values ≠ []) :
    ∃ x, resolveBypriority field values uniqueValues = .ok x := by
  cases values with
  | nil => exact absurd rfl h
  | cons v vs => exact ⟨_, rfl⟩

theorem resolveFieldConflicts_ok (field : String) (values : List (String × Value))
    (strategy : AggregationStrategy) (h : values ≠ []) :
    ∃ x, resolveFieldConflicts field values strategy = .ok x := by
  unfold resolveFieldConflicts
  have hu := getUniqueValues_ne_nil h
  cases hg : getUniqueValues values with
  | nil => exact absurd hg hu
  | cons u us =>
      cases us with
      | nil => exact ⟨_, rfl⟩
      | cons u2 us2 =>
          cases strategy.conflictResolution with
          | priority => exact resolveBypriority_ok field values _ h
          | newest => exact resolveBypriority_ok field values _ h
          | manual => exact resolveBypriority_ok field values _ h
          | majority => exact ⟨_, rfl⟩

theorem aggregateField_ok (field : String) (executions : List ProviderExecution)
    (strategy : AggregationStrategy) :
    ∃ r, aggregateField field executions strategy = .ok r := by
  unfold aggregateField
  dsimp only
  cases hv : (executions.filter (execHasField field)).map
      (fun e => (e.provider, execFieldValue field e)) with
  | nil => exact ⟨none, rfl⟩
  | cons pv tl =>
      cases tl with
      | nil => exact ⟨_, rfl⟩
      | cons pv2 tl2 =>
          obtain ⟨x, hx⟩ := resolveFieldConflicts_ok field (pv :: pv2 :: tl2) strategy (by simp)
          exact ⟨some x, by rw [hx]; rfl⟩

theorem foldlM_aggregateFieldStep_ok (executions : List ProviderExecution)
    (strategy : AggregationStrategy) (fields : List String) :
    ∀ acc, ∃ m, List.foldlM (aggregateFieldStep executions strategy) acc fields = .ok m := by
  induction fields with
  | nil => intro acc; exact ⟨acc, rfl⟩
  | cons f fs ih =>
      intro acc
      obtain ⟨r, hr⟩ := aggregateField_ok f executions strategy
      have hstep : ∃ acc', aggregateFieldStep executions strategy acc f = .ok acc' := by
        unfold aggregateFieldStep
        rw [hr]
        cases r with
        | none => exact ⟨acc, rfl⟩
        | some x => exact ⟨jsSet acc f x, rfl⟩
      obtain ⟨acc', hacc⟩ := hstep
      obtain ⟨m, hm⟩ := ih acc'
      refine ⟨m, ?_⟩
      rw [List.foldlM_cons, hacc]
      simpa using hm

theorem aggregateFieldResults_ok (fields : List String)
    (executions : List ProviderExecution) (strategy : AggregationStrategy) :
    ∃ m, aggregateFieldResults fields executions strategy = .ok m :=
  foldlM_aggregateFieldStep_ok executions strategy fields []

/-- The `try` block of `aggregateTokenData` never raises: it always
returns the response assembled from the executions and field results. -/
theorem aggregateTokenDataCore_ok (agg : DataAggregator)
    (behavior : String → ProviderOutcome) (fields : List String)
    (strategy : AggregationStrategy) (elapsed now : Nat) :
    ∃ m, tokenAggregationResults agg behavior fields strategy = .ok m ∧
      aggregateTokenDataCore agg behavior fields strategy elapsed now =
        .ok { data := buildTokenData m now
              metadata := buildResponseMetadata (tokenAllExecutions agg behavior fields)
                elapsed now (agg.fieldRouter.planTokenDataRouting fields)
              errors := extractErrors (tokenAllExecutions agg behavior fields) } := by
  obtain ⟨m, hm⟩ := aggregateFieldResults_ok fields (tokenAllExecutions agg behavior fields)
    strategy
  refine ⟨m, hm, ?_⟩
  unfold aggregateTokenDataCore
  dsimp only
  rw [show aggregateFieldResults fields (tokenAllExecutions agg behavior fields) strategy
      = .ok m from hm]
  rfl

/-- The wallet counterpart. -/
theorem aggregateWalletDataCore_ok (agg : DataAggregator)
    (behavior : String → ProviderOutcome) (fields : List String)
    (strategy : AggregationStrategy) (elapsed now : Nat) :
    ∃ m, aggregateFieldResults fields (walletAllExecutions agg behavior fields) strategy
        = .ok m ∧
      aggregateWalletDataCore agg behavior fields strategy elapsed now =
        .ok { data := buildWalletData m now
              metadata := buildResponseMetadata (walletAllExecutions agg behavior fields)
                elapsed now (agg.fieldRouter.planWalletDataRouting fields)
              errors := extractErrors (walletAllExecutions agg behavior fields) } := by
  obtain ⟨m, hm⟩ := aggregateFieldResults_ok fields (walletAllExecutions agg behavior fields)
    strategy
  refine ⟨m, hm, ?_⟩
  unfold aggregateWalletDataCore
  dsimp only
  rw [show aggregateFieldResults fields (walletAllExecutions agg behavior fields) strategy
      = .ok m from hm]
  rfl

/-- A failed execution that carries an error surfaces in `extractErrors`. -/
theorem mem_extractErrors {executions : List ProviderExecution} {e : ProviderExecution}
    (he : e ∈ executions) (hfail : e.success = false) {msg : String}
    (herr : e.error = some msg) :
    ({ provider := e.provider, error := msg, recoverable := true } : SDKError) ∈
      extractErrors executions := by
  unfold extractErrors
  refine List.mem_map.mpr ⟨e, List.mem_filter.mpr ⟨he, ?_⟩, ?_⟩
  · simp [hfail, herr]
  · simp [herr]

theorem missing_foldl_mono (r : FieldRouter) (plan : JsMap RoutingPlan)
    (fields : List String) :
    ∀ acc x, x ∈ acc → x ∈ fields.foldl (missingStep r plan) acc := by
  induction fields with
  | nil => intro acc x hx; exact hx
  | cons f fs ih =>
      intro acc x hx
      rw [List.foldl_cons]
      refine ih _ x ?_
      unfold missingStep
      split
      · exact List.mem_append_left _ hx
      · exact hx

theorem mem_missing_foldl (r : FieldRouter) (plan : JsMap RoutingPlan) :
    ∀ (fields : List String) (field : String), field ∈ fields → jsGet plan field = none →
      ∀ acc, mkMissingExecution r field ∈ fields.foldl (missingStep r plan) acc := by
  intro fields
  induction fields with
  | nil => intro field hmem _ _; cases hmem
  | cons f fs ih =>
      intro field hmem habs acc
      rw [List.foldl_cons]
      rcases List.mem_cons.mp hmem with hf | hf
      · subst hf
        refine missing_foldl_mono r plan fs _ _ ?_
        unfold missingStep
        rw [habs]
        simp
      · exact ih field hf habs _

theorem mem_missingProviderExecutions (agg : DataAggregator) (plan : JsMap RoutingPlan)
    (fields : List String) (field : String) (hmem : field ∈ fields)
    (habs : jsGet plan field = none) :
    mkMissingExecution agg.fieldRouter field ∈ missingProviderExecutions agg plan fields :=
  mem_missing_foldl agg.fieldRouter plan fields field hmem habs []

/-! ## C1 — synthesized "provider not found" executions -/

/-- C1 (amended): for `aggregateTokenData`, every requested field absent
from the routing plan yields a synthesized failed execution naming the
field's first configured-priority provider (or `unknown`), whose
"provider not found" error surfaces in the response's error list.
`aggregateWalletData` performs no such synthesis: a wallet field absent
from the plan yields neither data nor an error entry (see the
counterexample). -/
theorem token_missing_field_error (agg : DataAggregator)
    (behavior : String → ProviderOutcome) (fields : List String)
    (strategy? : Option AggregationStrategy) (elapsed now : Nat) (field : String)
    (hmem : field ∈ fields)
    (habs : jsGet (agg.fieldRouter.planTokenDataRouting fields) field = none) :
    ({ provider := missingProviderName agg.fieldRouter field
       error := "Provider " ++ missingProviderName agg.fieldRouter field ++ " not found"
       recoverable := true } : SDKError) ∈
      (aggregateTokenData agg behavior fields strategy? elapsed now).errors := by
  obtain ⟨m, _, hcore⟩ := aggregateTokenDataCore_ok agg behavior fields
    (strategy?.getD defaultAggregationStrategy) elapsed now
  unfold aggregateTokenData
  dsimp only
  rw [hcore]
  have hx : mkMissingExecution agg.fieldRouter field ∈ tokenAllExecutions agg behavior fields := by
    unfold tokenAllExecutions
    exact List.mem_append_right _
      (mem_missingProviderExecutions agg (agg.fieldRouter.planTokenDataRouting fields)
        fields field hmem habs)
  exact mem_extractErrors hx rfl rfl

/-- The empty aggregator used for the C1 counterexample and witness. -/
def aggEmpty : DataAggregator := DataAggregator.init [] [] 0

/-- Provider behavior that always throws (never reached here). -/
def behaviorThrows : String → ProviderOutcome := fun _ => .throws "x" 0

/-- C1 counterexample: `aggregateWalletData` on a field with no capable
provider and no priority list returns neither data for the field nor any
error entry — the claimed synthesized "provider not found" error is
missing on the wallet path (the same call on the token path does surface
it). -/
theorem wallet_missing_field_no_error_counterexample :
    (aggregateWalletData aggEmpty behaviorThrows ["balance"] none 5 7).errors = [] ∧
    jsGet (aggregateWalletData aggEmpty behaviorThrows ["balance"] none 5 7).data.fields
      "balance" = none ∧
    jsGet (aggEmpty.fieldRouter.planWalletDataRouting ["balance"]) "balance" = none := by
  refine ⟨by decide, by decide, by decide⟩

/-- Witness for C1 (amended): with no providers registered, the token
response surfaces the synthesized `unknown` provider error. -/
theorem token_missing_field_error_witness :
    ({ provider := "unknown", error := "Provider unknown not found",
       recoverable := true } : SDKError) ∈
      (aggregateTokenData aggEmpty behaviorThrows ["balance"] none 5 7).errors := by
  have h := token_missing_field_error aggEmpty behaviorThrows ["balance"] none 5 7 "balance"
    (by decide) (by decide)
  exact h

/-! ## C4 — failure semantics of the aggregation entry points -/

/-- C4 (amended): both entry points are total — the `try` block never
raises, so the caller always receives the assembled response — and every
failed provider execution *that carries an error object* becomes an error
entry with `recoverable = true` in that response; an exception inside the
aggregation machinery would be converted by the `catch` branch into a
response with an empty data record and exactly one error entry with
provider `aggregator` and `recoverable = false`.  (A failed execution
whose response carried no error object yields no entry at all — see the
counterexample.) -/
theorem aggregation_failure_semantics (agg : DataAggregator)
    (behavior : String → ProviderOutcome) (fields : List String)
    (strategy? : Option AggregationStrategy) (elapsed now : Nat) :
    (∃ r, aggregateTokenDataCore agg behavior fields
        (strategy?.getD defaultAggregationStrategy) elapsed now = .ok r ∧
      aggregateTokenData agg behavior fields strategy? elapsed now = r ∧
      ∀ e ∈ tokenAllExecutions agg behavior fields, e.success = false →
        ∀ msg, e.error = some msg →
          ({ provider := e.provider, error := msg, recoverable := true } : SDKError) ∈
            r.errors) ∧
    (∃ r, aggregateWalletDataCore agg behavior fields
        (strategy?.getD defaultAggregationStrategy) elapsed now = .ok r ∧
      aggregateWalletData agg behavior fields strategy? elapsed now = r ∧
      ∀ e ∈ walletAllExecutions agg behavior fields, e.success = false →
        ∀ msg, e.error = some msg →
          ({ provider := e.provider, error := msg, recoverable := true } : SDKError) ∈
            r.errors) ∧
    (∀ msg, (aggregatorCatchResponse msg elapsed now).data =
        { fields := [], dataSource := none, lastUpdated := none } ∧
      (aggregatorCatchResponse msg elapsed now).errors =
        [{ provider := "aggregator", error := msg, recoverable := false }]) := by
  refine ⟨?_, ?_, fun msg => ⟨rfl, rfl⟩⟩
  · obtain ⟨m, _, hcore⟩ := aggregateTokenDataCore_ok agg behavior fields
      (strategy?.getD defaultAggregationStrategy) elapsed now
    refine ⟨_, hcore, ?_, ?_⟩
    · unfold aggregateTokenData
      dsimp only
      rw [hcore]
    · intro e he hfail msg herr
      exact mem_extractErrors he hfail herr
  · obtain ⟨m, _, hcore⟩ := aggregateWalletDataCore_ok agg behavior fields
      (strategy?.getD defaultAggregationStrategy) elapsed now
    refine ⟨_, hcore, ?_, ?_⟩
    · unfold aggregateWalletData
      dsimp only
      rw [hcore]
    · intro e he hfail msg herr
      exact mem_extractErrors he hfail herr

/-- A single provider for `"price"` that fails with an error object. -/
def aggOneProvider : DataAggregator :=
  DataAggregator.init [⟨"p", ⟨some ["price"], none⟩⟩] [] 0

/-- `"p"` responds `{success: false, error: Error("boom")}`. -/
def behaviorFailsWithError : String → ProviderOutcome :=
  fun _ => .responds false none (some "boom") 5

/-- `"p"` responds `{success: false}` with no error object. -/
def behaviorFailsNoError : String → ProviderOutcome :=
  fun _ => .responds false none none 5

/-- Witness for C4 (amended): a provider failure carrying an error object
surfaces as a recoverable error entry in the token response. -/
theorem aggregation_failure_semantics_witness :
    ({ provider := "p", error := "boom", recoverable := true } : SDKError) ∈
      (aggregateTokenData aggOneProvider behaviorFailsWithError ["price"] none 3 9).errors := by
  obtain ⟨r, _, heq, hmem⟩ :=
    (aggregation_failure_semantics aggOneProvider behaviorFailsWithError ["price"]
      none 3 9).1
  rw [heq]
  exact hmem ⟨"p", false, none, some "boom", 5, []⟩ (by decide) rfl "boom" rfl

/-- C4 counterexample: a provider failure whose response carries no error
object produces a failed execution but *no* error entry — the response's
error list is empty, refuting "each failed provider execution becomes an
error entry". -/
theorem failed_execution_without_error_counterexample :
    (aggregateTokenData aggOneProvider behaviorFailsNoError ["price"] none 3 9).errors = [] ∧
    tokenAllExecutions aggOneProvider behaviorFailsNoError ["price"] =
      [{ provider := "p", success := false, data := none, error := none,
         responseTime := 5, fieldsProvided := [] }] := by
  refine ⟨by decide, by decide⟩

/-! ## C3 — priority conflict resolution -/

/-- On a single-field request whose priority list is `[a, b]` with both
providers capable, the plan picks `a` as primary. -/
theorem singleField_plan (r : FieldRouter) (f a b : String)
    (hamem : a ∈ r.getProvidersForTokenField f)
    (hbmem : b ∈ r.getProvidersForTokenField f) (hab : a ≠ b) (ha : a ≠ "")
    (hpr : jsGet r.fieldPriorities f = some [a, b]) :
    ∃ fb est, r.planTokenDataRouting [f] =
      [(f, { field := f, provider := a, fallbackProviders := fb, estimated := est })] := by
  have hopt : r.getOptimalProvider f (r.getProvidersForTokenField f) .priority = some a := by
    have hbyp : r.getProviderByPriority f (r.getProvidersForTokenField f) = a := by
      unfold FieldRouter.getProviderByPriority
      rw [hpr]
      dsimp only
      rw [List.find?_cons_of_pos]
      simpa [List.contains] using List.elem_iff.mpr hamem
    cases havail : r.getProvidersForTokenField f with
    | nil => rw [havail] at hamem; cases hamem
    | cons p tl =>
        cases tl with
        | nil =>
            rw [havail] at hamem hbmem
            simp only [List.mem_singleton] at hamem hbmem
            exact absurd (hamem.trans hbmem.symm) hab
        | cons q rest =>
            rw [havail] at hbyp
            unfold FieldRouter.getOptimalProvider
            rw [hbyp]
  refine ⟨sortByComparator (fallbackComparator r)
      ((r.getProvidersForTokenField f).filter (fun p => p ≠ a)),
    { responseTime := ((jsGet r.metrics a).map (·.avgResponseTime)).getD 1000
      successRate := ((jsGet r.metrics a).map (·.successRate)).getD 1
      cost := (jsGet r.metrics a).bind (·.cost) }, ?_⟩
  show List.foldl (tokenPlanStep r) [] [f] = _
  rw [List.foldl_cons, List.foldl_nil]
  unfold tokenPlanStep FieldRouter.createRoutingPlan
  rw [show r.getRoutingStrategy = .priority from rfl, hopt]
  simp [strFalsy, ha, jsSet]

/-- In the single-field two-provider priority scenario, the executed
calls are exactly the primary `a` followed by the extra priority provider
`b`, both succeeding with their data. -/
theorem singleField_allExecutions (agg : DataAggregator)
    (behavior : String → ProviderOutcome) (f a b : String) (pa pb : DataProvider)
    (da db : JsMap Value) (rta rtb : Nat) (la lb : List String)
    (hsync : agg.providers = agg.fieldRouter.providers)
    (hga : jsGet agg.fieldRouter.providers a = some pa)
    (hgb : jsGet agg.fieldRouter.providers b = some pb)
    (hca : pa.capabilities.tokenData = some la) (hfa : f ∈ la)
    (hcb : pb.capabilities.tokenData = some lb) (hfb : f ∈ lb)
    (hab : a ≠ b) (ha : a ≠ "")
    (hpr : jsGet agg.fieldRouter.fieldPriorities f = some [a, b])
    (hba : behavior a = .responds true (some da) none rta)
    (hbb : behavior b = .responds true (some db) none rtb) :
    tokenAllExecutions agg behavior [f] =
      [⟨a, true, some da, none, rta, [f]⟩, ⟨b, true, some db, none, rtb, [f]⟩] := by
  obtain ⟨fb, est, hplan⟩ := singleField_plan agg.fieldRouter f a b
    (avail_of_capable _ f a pa hga la hca hfa)
    (avail_of_capable _ f b pb hgb lb hcb hfb) hab ha hpr
  have ha' : jsGet agg.providers a = some pa := by rw [hsync]; exact hga
  have hb' : jsGet agg.providers b = some pb := by rw [hsync]; exact hgb
  have hcf : lb.contains f = true := by
    simpa [List.contains] using List.elem_iff.mpr hfb
  have hreq : tokenProviderRequests agg
      [(f, { field := f, provider := a, fallbackProviders := fb, estimated := est })] =
      [(a, [f]), (b, [f])] := by
    unfold tokenProviderRequests
    simp [jsGet, jsSet, hpr, hb', hcb, hcf, hfb, hab, Ne.symm hab]
  unfold tokenAllExecutions
  dsimp only
  rw [hplan]
  have hexecs : executeTokenDataRequests agg behavior
      [(f, { field := f, provider := a, fallbackProviders := fb, estimated := est })] =
      [⟨a, true, some da, none, rta, [f]⟩, ⟨b, true, some db, none, rtb, [f]⟩] := by
    unfold executeTokenDataRequests
    rw [hreq]
    have hrun_a : runProviderCall agg behavior a [f] = ⟨a, true, some da, none, rta, [f]⟩ := by
      unfold runProviderCall
      simp [ha', hba]
    have hrun_b : runProviderCall agg behavior b [f] = ⟨b, true, some db, none, rtb, [f]⟩ := by
      unfold runProviderCall
      simp [hb', hbb]
    rw [show ([(a, [f]), (b, [f])] : JsMap (List String)).map
        (fun e => runProviderCall agg behavior e.1 e.2) =
        [runProviderCall agg behavior a [f], runProviderCall agg behavior b [f]] from rfl]
    rw [hrun_a, hrun_b]
    unfold fallbackExecutions
    simp [List.find?]
  rw [hexecs]
  unfold missingProviderExecutions missingStep
  simp [jsGet]

/-- Aggregating the single conflicting field over the two successful
executions resolves by priority: first value wins, confidence 0.8, the
other distinct value is recorded as a conflict. -/
theorem singleField_aggregation (f a b : String) (da db : JsMap Value) (va vb : Value)
    (rta rtb : Nat) (strat : AggregationStrategy)
    (hva : jsGet da f = some va) (hvb : jsGet db f = some vb) (hne : va ≠ vb)
    (hcr : strat.conflictResolution = .priority) :
    aggregateFieldResults [f]
      [⟨a, true, some da, none, rta, [f]⟩, ⟨b, true, some db, none, rtb, [f]⟩] strat =
      .ok [(f, { field := f, value := va, sources := [a], confidence := 8 / 10,
                 conflicts := some [{ provider := b, value := vb, count := 1 }] })] := by
  have hfield : aggregateField f
      [⟨a, true, some da, none, rta, [f]⟩, ⟨b, true, some db, none, rtb, [f]⟩] strat =
      .ok (some { field := f, value := va, sources := [a], confidence := 8 / 10,
                  conflicts := some [{ provider := b, value := vb, count := 1 }] }) := by
    unfold aggregateField
    dsimp only
    rw [show List.filter (execHasField f)
        [(⟨a, true, some da, none, rta, [f]⟩ : ProviderExecution),
         ⟨b, true, some db, none, rtb, [f]⟩] =
        [⟨a, true, some da, none, rta, [f]⟩, ⟨b, true, some db, none, rtb, [f]⟩] from by
      simp [execHasField, hva, hvb]]
    rw [show List.map (fun e => (ProviderExecution.provider e, execFieldValue f e))
        [(⟨a, true, some da, none, rta, [f]⟩ : ProviderExecution),
         ⟨b, true, some db, none, rtb, [f]⟩] = [(a, va), (b, vb)] from by
      simp [execFieldValue, hva, hvb]]
    unfold resolveFieldConflicts
    rw [show getUniqueValues [(a, va), (b, vb)] =
        [{ provider := a, value := va, count := 1 },
         { provider := b, value := vb, count := 1 }] from by
      simp [getUniqueValues, addUnique, hne]]
    rw [hcr]
    unfold resolveBypriority
    simp [hne, Ne.symm hne, Except.map]
  unfold aggregateFieldResults
  rw [List.foldlM_cons]
  unfold aggregateFieldStep
  rw [hfield]
  rfl

/-- C3 (amended): in an aggregation requesting exactly one field, with
exactly two providers — both registered, both declaring the field, with
priority list `[a, b]` — returning distinct values under `priority`
conflict resolution, the resolved value is the higher-priority provider
`a`'s value, the confidence is 0.8, and `b`'s distinct value appears in
the conflicts list of the field's aggregation result.  (With several
requested fields the executions are grouped per provider across fields,
and the "first value" picked by `resolveBypriority` can come from a
provider ranked lower for that particular field — see the
counterexample.) -/
theorem priority_conflict_resolution (agg : DataAggregator)
    (behavior : String → ProviderOutcome) (f a b : String) (pa pb : DataProvider)
    (da db : JsMap Value) (va vb : Value) (rta rtb : Nat) (la lb : List String)
    (strat : AggregationStrategy) (elapsed now : Nat)
    (hsync : agg.providers = agg.fieldRouter.providers)
    (hga : jsGet agg.fieldRouter.providers a = some pa)
    (hgb : jsGet agg.fieldRouter.providers b = some pb)
    (hca : pa.capabilities.tokenData = some la) (hfa : f ∈ la)
    (hcb : pb.capabilities.tokenData = some lb) (hfb : f ∈ lb)
    (hab : a ≠ b) (ha : a ≠ "")
    (hpr : jsGet agg.fieldRouter.fieldPriorities f = some [a, b])
    (hba : behavior a = .responds true (some da) none rta)
    (hbb : behavior b = .responds true (some db) none rtb)
    (hva : jsGet da f = some va) (hvb : jsGet db f = some vb) (hne : va ≠ vb)
    (hcr : strat.conflictResolution = .priority) :
    tokenAggregationResults agg behavior [f] strat =
      .ok [(f, { field := f, value := va, sources := [a], confidence := 8 / 10,
                 conflicts := some [{ provider := b, value := vb, count := 1 }] })] ∧
    jsGet (aggregateTokenData agg behavior [f] (some strat) elapsed now).data.fields f =
      some va := by
  have hexec := singleField_allExecutions agg behavior f a b pa pb da db rta rtb la lb
    hsync hga hgb hca hfa hcb hfb hab ha hpr hba hbb
  have hagg : tokenAggregationResults agg behavior [f] strat =
      .ok [(f, { field := f, value := va, sources := [a], confidence := 8 / 10,
                 conflicts := some [{ provider := b, value := vb, count := 1 }] })] := by
    unfold tokenAggregationResults
    rw [hexec]
    exact singleField_aggregation f a b da db va vb rta rtb strat hva hvb hne hcr
  refine ⟨hagg, ?_⟩
  obtain ⟨m, hm, hcore⟩ := aggregateTokenDataCore_ok agg behavior [f] strat elapsed now
  have hm' : m = [(f, ({ field := f, value := va, sources := [a], confidence := 8 / 10, conflicts := some [{ provider := b, value := vb, count := 1 }] } : FieldAggregationResult))] := by
    have := hm.symm.trans hagg
    simpa using this
  unfold aggregateTokenData
  dsimp only
  rw [show (some strat).getD defaultAggregationStrategy = strat from rfl]
  rw [hcore]
  dsimp only
  rw [hm']
  simp [buildTokenData, jsGet]

/-- Two providers declaring both fields `"f"` and `"g"`. -/
def provTwoA : DataProvider := ⟨"A", ⟨some ["f", "g"], none⟩⟩

def provTwoB : DataProvider := ⟨"B", ⟨some ["f", "g"], none⟩⟩

/-- Aggregator with opposite priority orders for the two fields. -/
def aggTwoFields : DataAggregator :=
  DataAggregator.init [provTwoA, provTwoB] [("f", ["B", "A"]), ("g", ["A", "B"])] 0

/-- Both providers answer both fields, with distinct values. -/
def behaviorTwoFields : String → ProviderOutcome := fun n =>
  if n = "A" then .responds true (some [("f", .vNum 1), ("g", .vNum 10)]) none 5
  else if n = "B" then .responds true (some [("f", .vNum 2), ("g", .vNum 20)]) none 5
  else .throws "missing" 0

/-- C3 counterexample: requesting the two fields `["f", "g"]` where `"g"`
has priority order `[A, B]`, exactly two providers return distinct values
for `"g"` under `priority` resolution — yet the resolved value for `"g"`
is `B`'s `20`, not the higher-priority `A`'s `10`: the execution grouping
(driven by `"f"`, whose priority order is `[B, A]`) put `B` first, and
`resolveBypriority` takes the first value in execution order. -/
theorem priority_conflict_resolution_counterexample :
    jsGet aggTwoFields.fieldRouter.fieldPriorities "g" = some ["A", "B"] ∧
    tokenAggregationResults aggTwoFields behaviorTwoFields ["f", "g"]
      { combineStrategy := .first, conflictResolution := .priority } =
      .ok [("f", { field := "f", value := .vNum 2, sources := ["B"], confidence := 8 / 10,
                   conflicts := some [{ provider := "A", value := .vNum 1, count := 1 }] }),
           ("g", { field := "g", value := .vNum 20, sources := ["B"], confidence := 8 / 10,
                   conflicts := some [{ provider := "A", value := .vNum 10, count := 1 }] })] := by
  refine ⟨by decide, by rfl⟩

/-- The single-field witness configuration: priority `[A, B]` for
`"price"`, `A` answers 0.45, `B` answers 0.46. -/
def aggPriceWitness : DataAggregator :=
  DataAggregator.init [⟨"A", ⟨some ["price"], none⟩⟩, ⟨"B", ⟨some ["price"], none⟩⟩]
    [("price", ["A", "B"])] 0

def behaviorPriceWitness : String → ProviderOutcome := fun n =>
  if n = "A" then .responds true (some [("price", .vNum (45))]) none 5
  else if n = "B" then .responds true (some [("price", .vNum (46))]) none 7
  else .throws "missing" 0

/-- Witness for C3 (amended) at the concrete single-field scenario. -/
theorem priority_conflict_resolution_witness :
    tokenAggregationResults aggPriceWitness behaviorPriceWitness ["price"]
      { combineStrategy := .first, conflictResolution := .priority } =
      .ok [("price", { field := "price", value := .vNum (45), sources := ["A"],
                       confidence := 8 / 10,
                       conflicts := some [{ provider := "B", value := .vNum (46),
                                            count := 1 }] })] ∧
    jsGet (aggregateTokenData aggPriceWitness behaviorPriceWitness ["price"]
        (some { combineStrategy := .first, conflictResolution := .priority }) 3 9).data.fields
      "price" = some (.vNum (45)) := by
  exact priority_conflict_resolution aggPriceWitness behaviorPriceWitness "price" "A" "B"
    ⟨"A", ⟨some ["price"], none⟩⟩ ⟨"B", ⟨some ["price"], none⟩⟩
    [("price", .vNum (45))] [("price", .vNum (46))]
    (.vNum (45)) (.vNum (46)) 5 7 ["price"] ["price"]
    { combineStrategy := .first, conflictResolution := .priority } 3 9
    (by decide) (by decide) (by decide) rfl (by decide) rfl (by decide)
    (by decide) (by decide) (by decide) rfl rfl rfl rfl (by decide) rfl

end CardaLabs
